import Mathlib

/-
  Verification of the electricui-embedded wire-protocol core.

  Shallow embedding of:
  - src/wire/packet.rs   (Packet getters, setters, validation, CRC-16/CCITT-FALSE)
  - src/message.rs       (MessageId, MessageType)
  - src/wire/types.rs    (MessageType wire codes)
  - src/wire/framing.rs  (thin wrapper over the corncobs COBS coder; the coder
                          itself is external to the repository and is modelled
                          from the specification where needed)
  - src/decoder.rs       (byte-at-a-time frame decoder)

  Byte buffers are `List Nat` whose entries play the role of `u8` values;
  machine-integer casts and wrap-around are made explicit with `% 256`,
  bit masks, and saturating increments where the source uses them.
-/

namespace EUI

/-- Saturating increment: `x.saturating_add(1)` for an unsigned type with
maximum value `m`. -/
def satSucc (m x : Nat) : Nat := min (x + 1) m

def u8Max : Nat := 255
def u16Max : Nat := 65535
def usizeMax : Nat := 2 ^ 64 - 1

/-- One shift-and-conditionally-xor step of the MSB-first CRC-16 with
polynomial 0x1021, as performed by the crc crate for the
`CRC16_CCITT_FALSE` algorithm of src/wire/packet.rs (refin = refout = false,
xorout = 0). All arithmetic is in 16 bits. -/
def crcStepBit (c : Nat) : Nat :=
  if c &&& 0x8000 = 0 then (c <<< 1) &&& 0xFFFF
  else ((c <<< 1) ^^^ 0x1021) &&& 0xFFFF

/-- Iterate `crcStepBit`. -/
def crcIter : Nat → Nat → Nat
  | 0, c => c
  | n + 1, c => crcIter n (crcStepBit c)

/-- Absorb one input byte into the CRC state (xor into the top byte of the
16-bit state, then eight polynomial-division steps). -/
def crcByte (c b : Nat) : Nat := crcIter 8 (c ^^^ ((b % 256) <<< 8))

/-- CRC-16/CCITT-FALSE of a byte sequence: poly 0x1021, init 0xFFFF,
no reflection, no output xor (`Packet::CRC16_CCITT_FALSE`). -/
def crc16 (bs : List Nat) : Nat := bs.foldl crcByte 0xFFFF

/-- Write the bytes of `src` into `buf` starting at index `i`
(`copy_from_slice` onto a sub-slice). -/
def writeBytesAt : List Nat → Nat → List Nat → List Nat
  | buf, _, [] => buf
  | buf, i, b :: rest => writeBytesAt (buf.set i b) (i + 1) rest

/-- `MessageType` from src/message.rs. -/
inductive MessageType where
  | Callback
  | Custom
  | OffsetMetadata
  | Byte
  | Char
  | I8
  | U8
  | I16
  | U16
  | I32
  | U32
  | F32
  | F64
  | Unknown (raw : Nat)
deriving DecidableEq

/-- `MessageType::wire_type` (src/wire/types.rs; the thirteen known variants
map to codes 0-12, and the `Unknown` arm follows the
`From<MessageType> for u8` impl of src/message.rs, which returns the stored
raw code). -/
def MessageType.wire_type : MessageType → Nat
  | .Callback => 0
  | .Custom => 1
  | .OffsetMetadata => 2
  | .Byte => 3
  | .Char => 4
  | .I8 => 5
  | .U8 => 6
  | .I16 => 7
  | .U16 => 8
  | .I32 => 9
  | .U32 => 10
  | .F32 => 11
  | .F64 => 12
  | .Unknown raw => raw % 256

/-- `MessageType::from_wire` (src/wire/types.rs): codes 0-12 decode to the
known variants, anything else to `None`. -/
def MessageType.from_wire (wire : Nat) : Option MessageType :=
  match wire with
  | 0 => some .Callback
  | 1 => some .Custom
  | 2 => some .OffsetMetadata
  | 3 => some .Byte
  | 4 => some .Char
  | 5 => some .I8
  | 6 => some .U8
  | 7 => some .I16
  | 8 => some .U16
  | 9 => some .I32
  | 10 => some .U32
  | 11 => some .F32
  | 12 => some .F64
  | _ => none

/-- `MessageId` from src/message.rs: a validated byte-string identifier. -/
structure MessageId where
  bytes : List Nat
deriving DecidableEq

/-- `MessageId::MAX_SIZE` (= `Packet::MAX_MSG_ID_SIZE`). -/
def MessageId.MAX_SIZE : Nat := 15

/-- `MessageId::new` (src/message.rs): rejects the empty slice, slices longer
than 15 bytes, and the single null byte. -/
def MessageId.new (id : List Nat) : Option MessageId :=
  if id.isEmpty ∨ id.length > MessageId.MAX_SIZE ∨ (id.length = 1 ∧ id.getD 0 0 = 0)
  then none
  else some ⟨id⟩

namespace Packet

/-- `packet::Error` from src/wire/packet.rs. -/
inductive Error where
  | MissingHeader
  | MissingChecksum
  | IncompletePayload
  | InvalidChecksum
  | InvalidMessageIdLength
  | InvalidMessageId
  | InvalidDataLength
  | UnknownMessageType (raw : Nat)
deriving DecidableEq

def HEADER_SIZE : Nat := 3
def CHECKSUM_SIZE : Nat := 2
def MAX_PAYLOAD_SIZE : Nat := 1024
def MAX_MSG_ID_SIZE : Nat := 15
def BASE_PACKET_SIZE : Nat := HEADER_SIZE + CHECKSUM_SIZE

/-- `LittleEndian::read_u16` on the two bytes at indices `i`, `i + 1`. -/
def readU16LE (buf : List Nat) (i : Nat) : Nat :=
  buf.getD i 0 ||| (buf.getD (i + 1) 0 <<< 8)

/-- `LittleEndian::write_u16` of `v` at indices `i`, `i + 1`. -/
def writeU16LE (buf : List Nat) (i v : Nat) : List Nat :=
  (buf.set i (v % 256)).set (i + 1) ((v >>> 8) % 256)

/-- `Packet::data_length`: 10-bit little-endian field in bytes 0-1. -/
def data_length (buf : List Nat) : Nat := readU16LE buf 0 &&& 0x3FF

/-- `Packet::typ_raw`: bits 2-5 of byte 1. -/
def typ_raw (buf : List Nat) : Nat := (buf.getD 1 0 >>> 2) &&& 0x0F

/-- `Packet::typ`: decode the raw type code. -/
def typ (buf : List Nat) : Except Error MessageType :=
  match MessageType.from_wire (typ_raw buf) with
  | some t => .ok t
  | none => .error (.UnknownMessageType (typ_raw buf))

/-- `Packet::internal`: bit 6 of byte 1. -/
def internal (buf : List Nat) : Bool := ((buf.getD 1 0 >>> 6) &&& 0x01) != 0

/-- `Packet::offset`: bit 7 of byte 1. -/
def offset (buf : List Nat) : Bool := ((buf.getD 1 0 >>> 7) &&& 0x01) != 0

/-- `Packet::id_length_raw`: bits 0-3 of byte 2. -/
def id_length_raw (buf : List Nat) : Nat := buf.getD 2 0 &&& 0x0F

/-- `Packet::id_length`: the raw id length, rejecting zero. -/
def id_length (buf : List Nat) : Except Error Nat :=
  if id_length_raw buf = 0 then .error .InvalidMessageIdLength
  else .ok (id_length_raw buf)

/-- `Packet::response`: bit 4 of byte 2. -/
def response (buf : List Nat) : Bool := ((buf.getD 2 0 >>> 4) &&& 0x01) != 0

/-- `Packet::acknum`: bits 5-7 of byte 2. -/
def acknum (buf : List Nat) : Nat := (buf.getD 2 0 >>> 5) &&& 0x07

/-- `Packet::buffer_len`. -/
def buffer_len (nMsgIdBytes nPayloadBytes : Nat) : Nat :=
  BASE_PACKET_SIZE + nMsgIdBytes + nPayloadBytes

/-- `Packet::check_len`. -/
def check_len (buf : List Nat) : Except Error Unit :=
  if buf.length < HEADER_SIZE then .error .MissingHeader
  else if buf.length < HEADER_SIZE + CHECKSUM_SIZE then .error .MissingChecksum
  else .ok ()

/-- `Packet::check_payload_length`. -/
def check_payload_length (buf : List Nat) : Except Error Unit := do
  let idLen ← id_length buf
  let dataLen := data_length buf
  if buf.length < buffer_len idLen dataLen then throw .IncompletePayload
  else pure ()

/-- `Packet::checksum`: the stored (trailing) checksum. -/
def checksum (buf : List Nat) : Except Error Nat := do
  let idLen ← id_length buf
  let dataLen := data_length buf
  pure (readU16LE buf (HEADER_SIZE + idLen + dataLen))

/-- `Packet::compute_checksum`: CRC over header, id, and payload bytes. -/
def compute_checksum (buf : List Nat) : Except Error Nat := do
  let idLen ← id_length buf
  let dataLen := data_length buf
  pure (crc16 (buf.take (HEADER_SIZE + idLen + dataLen)))

/-- `Packet::check_checksum`. -/
def check_checksum (buf : List Nat) : Except Error Unit := do
  let provided ← checksum buf
  let computed ← compute_checksum buf
  if computed ≠ provided then throw .InvalidChecksum
  else pure ()

/-- `Packet::new`: length check, payload-length check, checksum check, in
that order. -/
def new (buf : List Nat) : Except Error (List Nat) := do
  check_len buf
  check_payload_length buf
  check_checksum buf
  pure buf

/-- `Packet::wire_size`. -/
def wire_size (buf : List Nat) : Except Error Nat := do
  let idLen ← id_length buf
  pure (buffer_len idLen (data_length buf))

/-- `Packet::msg_id_raw`: the id bytes at indices 3 .. 3 + id_length. -/
def msg_id_raw (buf : List Nat) : Except Error (List Nat) := do
  let idLen ← id_length buf
  pure ((buf.drop HEADER_SIZE).take idLen)

/-- `Packet::msg_id`. -/
def msg_id (buf : List Nat) : Except Error MessageId := do
  let raw ← msg_id_raw buf
  match MessageId.new raw with
  | some mid => pure mid
  | none => throw .InvalidMessageId

/-- `Packet::payload`: the payload bytes after the id. -/
def payload (buf : List Nat) : Except Error (List Nat) := do
  let idLen ← id_length buf
  let dataLen := data_length buf
  pure ((buf.drop (HEADER_SIZE + idLen)).take dataLen)

/-- `Packet::set_data_length`: rejects values above 1024, otherwise performs
`LittleEndian::write_u16` of `value & 0x3FF` into bytes 0-1. -/
def set_data_length (buf : List Nat) (value : Nat) : Except Error (List Nat) :=
  if value > MAX_PAYLOAD_SIZE then .error .InvalidDataLength
  else .ok (writeU16LE buf 0 (value &&& 0x3FF))

/-- `Packet::set_typ`: read-modify-write of bits 2-5 of byte 1 (`!0x3C` in
`u8` is 0xC3; the `u8` shift of the wire code wraps modulo 256). -/
def set_typ (buf : List Nat) (value : MessageType) : List Nat :=
  buf.set 1 ((buf.getD 1 0 &&& 0xC3) ||| ((value.wire_type <<< 2) % 256))

/-- `Packet::set_internal`: bit 6 of byte 1 (`!(1 << 6)` in `u8` is 0xBF). -/
def set_internal (buf : List Nat) (value : Bool) : List Nat :=
  if value then buf.set 1 (buf.getD 1 0 ||| 0x40)
  else buf.set 1 (buf.getD 1 0 &&& 0xBF)

/-- `Packet::set_offset`: bit 7 of byte 1 (`!(1 << 7)` in `u8` is 0x7F). -/
def set_offset (buf : List Nat) (value : Bool) : List Nat :=
  if value then buf.set 1 (buf.getD 1 0 ||| 0x80)
  else buf.set 1 (buf.getD 1 0 &&& 0x7F)

/-- `Packet::set_id_length`: rejects 0 and values above 15, otherwise
read-modify-write of bits 0-3 of byte 2 (`!0x0F` in `u8` is 0xF0). -/
def set_id_length (buf : List Nat) (value : Nat) : Except Error (List Nat) :=
  if value = 0 ∨ value > MAX_MSG_ID_SIZE then .error .InvalidMessageIdLength
  else .ok (buf.set 2 ((buf.getD 2 0 &&& 0xF0) ||| (value &&& 0x0F)))

/-- `Packet::set_response`: bit 4 of byte 2 (`!(1 << 4)` in `u8` is 0xEF). -/
def set_response (buf : List Nat) (value : Bool) : List Nat :=
  if value then buf.set 2 (buf.getD 2 0 ||| 0x10)
  else buf.set 2 (buf.getD 2 0 &&& 0xEF)

/-- `Packet::set_acknum`: read-modify-write of bits 5-7 of byte 2
(`!0xE0` in `u8` is 0x1F). -/
def set_acknum (buf : List Nat) (value : Nat) : List Nat :=
  buf.set 2 ((buf.getD 2 0 &&& 0x1F) ||| ((value &&& 0x07) <<< 5))

/-- `Packet::msg_id_mut` followed by `copy_from_slice`: overwrite the id
bytes. -/
def set_msg_id_bytes (buf : List Nat) (src : List Nat) : List Nat :=
  writeBytesAt buf HEADER_SIZE src

/-- `Packet::payload_mut` followed by a write: overwrite payload bytes,
which start after the id bytes. -/
def set_payload_bytes (buf : List Nat) (idLen : Nat) (src : List Nat) : List Nat :=
  writeBytesAt buf (HEADER_SIZE + idLen) src

/-- `Packet::set_checksum`: `LittleEndian::write_u16` of `value` at the
checksum position. -/
def set_checksum (buf : List Nat) (value : Nat) : Except Error (List Nat) := do
  let idLen ← id_length buf
  let dataLen := data_length buf
  pure (writeU16LE buf (HEADER_SIZE + idLen + dataLen) value)

end Packet

namespace Framing

/-- The frame delimiter byte (`corncobs::ZERO`). -/
def ZERO : Nat := 0

/-- Modelled from the spec: `Framing::max_encoded_len` delegates to
`corncobs::max_encoded_len`, whose source is not part of this repository.
The spec (section 6) gives the formula
`max_encoded_len(n) = n + ceil(n/254) + 1`. -/
def max_encoded_len (raw_len : Nat) : Nat :=
  raw_len + (raw_len + 253) / 254 + 1

/-- Modelled from the spec: the body of the COBS encoder behind
`Framing::encode_buf` (`corncobs::encode_buf`, not part of this repository).
The spec describes classic zero-elimination coding: each group of up to 254
non-delimiter bytes is preceded by a code byte holding the distance to the
next group boundary; a group cut at 254 bytes (code 0xFF) implies no zero.
Structured with explicit fuel; `fuel ≥ bs.length + 1` always suffices since
every recursive call consumes at least one input byte. -/
def cobsGo : Nat → List Nat → List Nat
  | 0, _ => [1]
  | fuel + 1, bs =>
    let g := (bs.takeWhile (fun b => b != 0)).take 254
    if g.length = 254 then 255 :: (g ++ cobsGo fuel (bs.drop 254))
    else
      match bs.drop g.length with
      | [] => (g.length + 1) :: g
      | _ :: rest => (g.length + 1) :: (g ++ cobsGo fuel rest)

/-- Modelled from the spec: `Framing::encode_buf` (`corncobs::encode_buf`):
the COBS body followed by the 0x00 terminator. -/
def encode_buf (bs : List Nat) : List Nat :=
  cobsGo (bs.length + 1) bs ++ [ZERO]

end Framing

/-- `decoder::State` from src/decoder.rs. -/
inductive State where
  | FrameOffset
  | HeaderB0
  | HeaderB1
  | HeaderB2
  | MsgId
  | OffsetB0
  | OffsetB1
  | Payload
  | CrcB0
  | CrcB1
deriving DecidableEq

/-- `decoder::Error` from src/decoder.rs. -/
inductive DecoderError where
  | InsufficientBufferSize
  | PacketError (e : Packet.Error)
deriving DecidableEq

/-- `Decoder` state (src/decoder.rs). `packet_storage` is the caller-supplied
accumulation buffer; its length plays the role of the const generic `N`. -/
structure Decoder where
  state : State
  frame_offset : Nat
  id_bytes_read : Nat
  data_bytes_read : Nat
  bytes_read : Nat
  valid_pkt_count : Nat
  invalid_pkt_count : Nat
  data_len : Nat
  offset : Bool
  id_len : Nat
  packet_storage : List Nat
deriving DecidableEq

namespace Decoder

/-- `Decoder::new`. -/
def new (storage : List Nat) : Decoder :=
  { state := .FrameOffset
    frame_offset := 0
    id_bytes_read := 0
    data_bytes_read := 0
    bytes_read := 0
    valid_pkt_count := 0
    invalid_pkt_count := 0
    data_len := 0
    offset := false
    id_len := 0
    packet_storage := storage }

/-- `Decoder::reset`. -/
def reset (d : Decoder) : Decoder :=
  { d with state := .FrameOffset, frame_offset := 0, bytes_read := 0 }

/-- `Decoder::count`. -/
def count (d : Decoder) : Nat := d.valid_pkt_count

/-- `Decoder::invalid_count`. -/
def invalid_count (d : Decoder) : Nat := d.invalid_pkt_count

/-- `Decoder::feed`: append one reconstructed byte to the accumulation
buffer, failing when the buffer is full. -/
def feed (d : Decoder) (byte : Nat) : Except DecoderError Decoder :=
  if d.bytes_read ≥ d.packet_storage.length then .error .InsufficientBufferSize
  else .ok { d with
    packet_storage := d.packet_storage.set d.bytes_read byte
    bytes_read := satSucc usizeMax d.bytes_read }

/-- The header/body state machine of `Decoder::decode` (the `match` on
`self.state`), applied to the de-framed byte. On a `feed` failure the error
propagates with no further mutation (the Rust `?`). -/
def machineStep (d : Decoder) (byte : Nat) :
    Decoder × Except DecoderError (Option (List Nat)) :=
  match d.state with
  | .FrameOffset => ({ d with state := .HeaderB0 }, .ok none)
  | .HeaderB0 =>
    match d.feed byte with
    | .error e => (d, .error e)
    | .ok d2 => ({ d2 with data_len := byte, state := .HeaderB1 }, .ok none)
  | .HeaderB1 =>
    match d.feed byte with
    | .error e => (d, .error e)
    | .ok d2 =>
      ({ d2 with
          data_len := d.data_len ||| ((byte <<< 8) &&& 0x0300)
          offset := ((byte >>> 7) &&& 0x01) != 0
          state := .HeaderB2 }, .ok none)
  | .HeaderB2 =>
    match d.feed byte with
    | .error e => (d, .error e)
    | .ok d2 =>
      ({ d2 with
          id_len := byte &&& 0x0F
          id_bytes_read := 0
          state := .MsgId }, .ok none)
  | .MsgId =>
    match d.feed byte with
    | .error e => (d, .error e)
    | .ok d2 =>
      let r := satSucc u8Max d.id_bytes_read
      if r ≥ d.id_len then
        if d.offset then
          ({ d2 with id_bytes_read := r, state := .OffsetB0 }, .ok none)
        else if d.data_len > 0 then
          ({ d2 with id_bytes_read := r, data_bytes_read := 0,
                     state := .Payload }, .ok none)
        else
          ({ d2 with id_bytes_read := r, state := .CrcB0 }, .ok none)
      else ({ d2 with id_bytes_read := r }, .ok none)
  | .OffsetB0 =>
    match d.feed byte with
    | .error e => (d, .error e)
    | .ok d2 => ({ d2 with state := .OffsetB1 }, .ok none)
  | .OffsetB1 =>
    match d.feed byte with
    | .error e => (d, .error e)
    | .ok d2 => ({ d2 with state := .Payload }, .ok none)
  | .Payload =>
    match d.feed byte with
    | .error e => (d, .error e)
    | .ok d2 =>
      let r := satSucc u16Max d.data_bytes_read
      if r ≥ d.data_len then
        ({ d2 with data_bytes_read := r, state := .CrcB0 }, .ok none)
      else ({ d2 with data_bytes_read := r }, .ok none)
  | .CrcB0 =>
    match d.feed byte with
    | .error e => (d, .error e)
    | .ok d2 => ({ d2 with state := .CrcB1 }, .ok none)
  | .CrcB1 =>
    match d.feed byte with
    | .error e => (d, .error e)
    | .ok d2 =>
      let n := d2.bytes_read
      let d3 := d2.reset
      match Packet.new (d2.packet_storage.take n) with
      | .ok p =>
        ({ d3 with valid_pkt_count := satSucc usizeMax d3.valid_pkt_count },
         .ok (some p))
      | .error e =>
        ({ d3 with invalid_pkt_count := satSucc usizeMax d3.invalid_pkt_count },
         .error (.PacketError e))

/-- `Decoder::decode`: a 0x00 wire byte resets the machine; otherwise the
COBS offset countdown either passes the byte through (offset still above 1)
or reinterprets the byte as the next offset and substitutes a literal zero;
the resulting byte drives the state machine. -/
def decode (d : Decoder) (byte : Nat) :
    Decoder × Except DecoderError (Option (List Nat)) :=
  if byte = 0 then (d.reset, .ok none)
  else if d.frame_offset > 1 then
    machineStep { d with frame_offset := d.frame_offset - 1 } byte
  else
    machineStep { d with frame_offset := byte } 0

/-- Run the decoder over a byte list, discarding the outputs. -/
def runList (d : Decoder) : List Nat → Decoder
  | [] => d
  | b :: bs => runList (decode d b).1 bs

/-- The outputs produced by running the decoder over a byte list. -/
def outputs (d : Decoder) : List Nat → List (Except DecoderError (Option (List Nat)))
  | [] => []
  | b :: bs => (decode d b).2 :: outputs (decode d b).1 bs

/-- The state in which each successive byte of the list is consumed. -/
def stateTrace (d : Decoder) : List Nat → List State
  | [] => []
  | b :: bs => d.state :: stateTrace (decode d b).1 bs

end Decoder

/-- Discriminator for `Except` results (Rust `Result::is_ok`). -/
def okB {ε α : Type} : Except ε α → Bool
  | .ok _ => true
  | .error _ => false

/-- The two wire bytes that put a given data-length low byte `h0` in front of
the decoder (src/decoder.rs COBS handling): a nonzero `h0` rides inside the
group opened by the offset byte `w0`, while `h0 = 0` cannot appear on the wire
and instead arrives as an offset expiry — the previous offset byte is 1, the
byte at the `h0` position is the next offset `w0`, and the decoder substitutes
a literal zero. -/
def wireHead (w0 h0 : Nat) : List Nat :=
  if h0 = 0 then [1, w0] else [w0, h0]

/-- The de-framed 9-byte `MSG_I8` packet buffer from the tests of
src/wire/packet.rs. -/
def i8Frame : List Nat := [0x01, 0x14, 0x63, 0x61, 0x62, 0x63, 0x2A, 0xB8, 0xA3]

/-- The construct_i8 build sequence of src/wire/packet.rs: fill a 9-byte
buffer field by field through the mutators, then store the computed
checksum. -/
def buildI8 : Except Packet.Error (List Nat) := do
  let b0 : List Nat := List.replicate 9 0xFF
  let b1 ← Packet.set_data_length b0 1
  let b2 := Packet.set_typ b1 .I8
  let b3 := Packet.set_internal b2 false
  let b4 := Packet.set_offset b3 false
  let b5 ← Packet.set_id_length b4 3
  let b6 := Packet.set_response b5 false
  let b7 := Packet.set_acknum b6 3
  let b8 := Packet.set_msg_id_bytes b7 [0x61, 0x62, 0x63]
  let b9 := Packet.set_payload_bytes b8 3 [0x2A]
  let c ← Packet.compute_checksum b9
  Packet.set_checksum b9 c

/-- Body (header, id, payload) of a 255-byte packet that is one long run of
non-zero bytes: data_length = 249 = 0xF9, type code 5 (byte 0x14),
id_length = 1, id byte 0x61, payload 249 bytes of 0x41. -/
def longBody : List Nat := [0xF9, 0x14, 0x01, 0x61] ++ List.replicate 249 0x41

/-- The 255-byte packet: body plus its little-endian CRC-16/CCITT-FALSE
checksum 0x831C (proved below as crc16_longBody). -/
def longPkt : List Nat := longBody ++ [0x1C, 0x83]

/-
  Theorems.
-/

/-- Bytes below `2 ^ (lo + n)` agree after shifting out `lo` bits and
masking to `n` bits whenever their bits in the window `[lo, lo + n)`
agree. -/
theorem maskWindow_eq (x y lo n : Nat)
    (h : ∀ j, lo ≤ j → j < lo + n → x.testBit j = y.testBit j) :
    (x >>> lo) &&& (2 ^ n - 1) = (y >>> lo) &&& (2 ^ n - 1) := by
  apply Nat.eq_of_testBit_eq
  intro i
  simp only [Nat.testBit_and, Nat.testBit_shiftRight, Nat.testBit_two_pow_sub_one]
  by_cases hi : i < n
  · rw [h (lo + i) (Nat.le_add_right _ _) (by omega)]
  · simp [hi]

/-- The 10-bit data_length field only depends on byte 0 and bits 0-1 of
byte 1. -/
theorem dataLengthWord_eq (b0 x y : Nat)
    (h : ∀ j, j < 2 → x.testBit j = y.testBit j) :
    (b0 ||| (x <<< 8)) &&& 0x3FF = (b0 ||| (y <<< 8)) &&& 0x3FF := by
  have h3 : (0x3FF : Nat) = 2 ^ 10 - 1 := rfl
  apply Nat.eq_of_testBit_eq
  intro i
  simp only [h3, Nat.testBit_and, Nat.testBit_or, Nat.testBit_shiftLeft,
    Nat.testBit_two_pow_sub_one]
  by_cases hi : i < 10
  · by_cases h8 : 8 ≤ i
    · rw [h (i - 8) (by omega)]
    · simp [h8]
  · simp [hi]

/-- A buffer of length at least 3 splits into its three header bytes and a
tail. -/
theorem three_cons_of_len (buf : List Nat) (h : 3 ≤ buf.length) :
    ∃ a b c t, buf = a :: b :: c :: t := by
  rcases buf with _ | ⟨a, buf⟩
  · simp at h
  rcases buf with _ | ⟨b, buf⟩
  · simp at h
  rcases buf with _ | ⟨c, t⟩
  · simp at h
  exact ⟨a, b, c, t, rfl⟩

theorem data_length_cons (a b c : Nat) (t : List Nat) :
    Packet.data_length (a :: b :: c :: t) = (a ||| (b <<< 8)) &&& 0x3FF := rfl

theorem typ_raw_cons (a b c : Nat) (t : List Nat) :
    Packet.typ_raw (a :: b :: c :: t) = (b >>> 2) &&& 0x0F := rfl

theorem internal_cons (a b c : Nat) (t : List Nat) :
    Packet.internal (a :: b :: c :: t) = (((b >>> 6) &&& 0x01) != 0) := rfl

theorem offset_cons (a b c : Nat) (t : List Nat) :
    Packet.offset (a :: b :: c :: t) = (((b >>> 7) &&& 0x01) != 0) := rfl

theorem id_length_raw_cons (a b c : Nat) (t : List Nat) :
    Packet.id_length_raw (a :: b :: c :: t) = c &&& 0x0F := rfl

theorem response_cons (a b c : Nat) (t : List Nat) :
    Packet.response (a :: b :: c :: t) = (((c >>> 4) &&& 0x01) != 0) := rfl

theorem acknum_cons (a b c : Nat) (t : List Nat) :
    Packet.acknum (a :: b :: c :: t) = (c >>> 5) &&& 0x07 := rfl

/-- Or-ing in a constant leaves the bits where the constant is zero. -/
theorem testBit_or_of_false (b m j : Nat) (hm : m.testBit j = false) :
    (b ||| m).testBit j = b.testBit j := by
  simp [Nat.testBit_or, hm]

/-- And-ing with a constant leaves the bits where the constant is one. -/
theorem testBit_and_of_true (b m j : Nat) (hm : m.testBit j = true) :
    (b &&& m).testBit j = b.testBit j := by
  simp [Nat.testBit_and, hm]

/-- A masked read-modify-write leaves the bits kept by the mask and not
touched by the inserted value. -/
theorem testBit_rmw (b m s j : Nat) (hm : m.testBit j = true)
    (hs : s.testBit j = false) :
    ((b &&& m) ||| s).testBit j = b.testBit j := by
  simp [Nat.testBit_or, Nat.testBit_and, hm, hs]

/-- Bits of a shifted small value vanish below the shift and above its
width. -/
theorem testBit_shifted_small (w n k j : Nat) (hw : w < 2 ^ n)
    (hj : j < k ∨ k + n ≤ j) : (w <<< k).testBit j = false := by
  simp only [Nat.testBit_shiftLeft]
  rcases hj with hj | hj
  · simp [show ¬ (k ≤ j) by omega]
  · have hw2 : w.testBit (j - k) = false := by
      apply Nat.testBit_lt_two_pow
      calc w < 2 ^ n := hw
        _ ≤ 2 ^ (j - k) := Nat.pow_le_pow_right (by omega) (by omega)
    simp [hw2]

/-- Recombining the low byte and the shifted high part of a value yields
the value back. -/
theorem low_or_high (w : Nat) : (w % 256) ||| ((w >>> 8) <<< 8) = w := by
  apply Nat.eq_of_testBit_eq
  intro i
  have h256 : (256 : Nat) = 2 ^ 8 := rfl
  simp only [Nat.testBit_or, Nat.testBit_shiftLeft, Nat.testBit_shiftRight,
    h256, Nat.testBit_mod_two_pow]
  by_cases h8 : 8 ≤ i
  · have he : 8 + (i - 8) = i := by omega
    simp [show ¬ (i < 8) by omega, h8, he]
  · simp [show i < 8 by omega, h8]

/-- C2 (amended): set_data_length fails with InvalidDataLength exactly for
values above 1024; after a successful call the data_length getter returns
the stored value modulo 1024 (so the boundary value 1024 itself is
accepted but reads back as 0). -/
theorem set_data_length_spec (buf : List Nat) (v : Nat)
    (hlen : 3 ≤ buf.length) (hv : v < 65536) :
    ((Packet.set_data_length buf v = .error .InvalidDataLength) ↔ 1024 < v) ∧
    (∀ out, Packet.set_data_length buf v = .ok out →
      Packet.data_length out = v % 1024) := by
  obtain ⟨a, b, c, t, rfl⟩ := three_cons_of_len buf hlen
  have hmask : (0x3FF : Nat) = 2 ^ 10 - 1 := rfl
  have hw : v &&& 0x3FF = v % 1024 := by
    rw [hmask]
    exact Nat.and_pow_two_sub_one_eq_mod v 10
  constructor
  · unfold Packet.set_data_length Packet.MAX_PAYLOAD_SIZE
    by_cases h : 1024 < v
    · simp [h]
    · simp [h]
  · intro out hout
    unfold Packet.set_data_length Packet.MAX_PAYLOAD_SIZE at hout
    by_cases h : 1024 < v
    · simp [h] at hout
    · rw [if_neg h] at hout
      injection hout with hout
      subst hout
      have hdiv : (v &&& 0x3FF) >>> 8 = (v &&& 0x3FF) / 256 :=
        Nat.shiftRight_eq_div_pow _ 8
      have hwlt : v &&& 0x3FF < 1024 := by rw [hw]; omega
      have hhi : ((v &&& 0x3FF) >>> 8) % 256 = (v &&& 0x3FF) >>> 8 := by
        apply Nat.mod_eq_of_lt
        rw [hdiv]
        omega
      simp only [Packet.writeU16LE, List.set_cons_zero, List.set_cons_succ]
      rw [data_length_cons, hhi, low_or_high, Nat.and_assoc]
      rw [show (0x3FF : Nat) &&& 0x3FF = 0x3FF from rfl]
      exact hw

/-- C2 counterexample: set_data_length(1024) succeeds (1024 is not greater
than MAX_PAYLOAD_SIZE) but stores 1024 AND 0x3FF = 0, so the getter does
not return 1024. -/
theorem set_data_length_at_1024 :
    Packet.set_data_length [0, 0, 0] 1024 = .ok [0, 0, 0] ∧
    Packet.data_length [0, 0, 0] = 0 ∧
    Packet.data_length [0, 0, 0] ≠ 1024 :=
  ⟨rfl, rfl, by decide⟩

/-- C2 witness: the spec applied to the buffer 00 00 00 and value 7. -/
theorem set_data_length_spec_witness :
    Packet.data_length [7, 0, 0] = 7 % 1024 :=
  (set_data_length_spec [0, 0, 0] 7 (by decide) (by decide)).2 [7, 0, 0] rfl

/-- C1 (amended): every setter except set_data_length performs a masked
read-modify-write that leaves every sibling header field unchanged;
set_data_length preserves the byte-2 fields (id_length, response, acknum)
but overwrites both data-length bytes wholesale, which clears the type,
internal, and offset fields that share byte 1. -/
theorem setter_sibling_preservation (buf : List Nat) (hlen : 3 ≤ buf.length) :
    (∀ t : MessageType, t.wire_type < 16 →
      Packet.data_length (Packet.set_typ buf t) = Packet.data_length buf ∧
      Packet.internal (Packet.set_typ buf t) = Packet.internal buf ∧
      Packet.offset (Packet.set_typ buf t) = Packet.offset buf ∧
      Packet.id_length_raw (Packet.set_typ buf t) = Packet.id_length_raw buf ∧
      Packet.response (Packet.set_typ buf t) = Packet.response buf ∧
      Packet.acknum (Packet.set_typ buf t) = Packet.acknum buf) ∧
    (∀ v : Bool,
      Packet.data_length (Packet.set_internal buf v) = Packet.data_length buf ∧
      Packet.typ_raw (Packet.set_internal buf v) = Packet.typ_raw buf ∧
      Packet.offset (Packet.set_internal buf v) = Packet.offset buf ∧
      Packet.id_length_raw (Packet.set_internal buf v) = Packet.id_length_raw buf ∧
      Packet.response (Packet.set_internal buf v) = Packet.response buf ∧
      Packet.acknum (Packet.set_internal buf v) = Packet.acknum buf) ∧
    (∀ v : Bool,
      Packet.data_length (Packet.set_offset buf v) = Packet.data_length buf ∧
      Packet.typ_raw (Packet.set_offset buf v) = Packet.typ_raw buf ∧
      Packet.internal (Packet.set_offset buf v) = Packet.internal buf ∧
      Packet.id_length_raw (Packet.set_offset buf v) = Packet.id_length_raw buf ∧
      Packet.response (Packet.set_offset buf v) = Packet.response buf ∧
      Packet.acknum (Packet.set_offset buf v) = Packet.acknum buf) ∧
    (∀ v : Bool,
      Packet.data_length (Packet.set_response buf v) = Packet.data_length buf ∧
      Packet.typ_raw (Packet.set_response buf v) = Packet.typ_raw buf ∧
      Packet.internal (Packet.set_response buf v) = Packet.internal buf ∧
      Packet.offset (Packet.set_response buf v) = Packet.offset buf ∧
      Packet.id_length_raw (Packet.set_response buf v) = Packet.id_length_raw buf ∧
      Packet.acknum (Packet.set_response buf v) = Packet.acknum buf) ∧
    (∀ v : Nat,
      Packet.data_length (Packet.set_acknum buf v) = Packet.data_length buf ∧
      Packet.typ_raw (Packet.set_acknum buf v) = Packet.typ_raw buf ∧
      Packet.internal (Packet.set_acknum buf v) = Packet.internal buf ∧
      Packet.offset (Packet.set_acknum buf v) = Packet.offset buf ∧
      Packet.id_length_raw (Packet.set_acknum buf v) = Packet.id_length_raw buf ∧
      Packet.response (Packet.set_acknum buf v) = Packet.response buf) ∧
    (∀ v out, Packet.set_id_length buf v = .ok out →
      Packet.data_length out = Packet.data_length buf ∧
      Packet.typ_raw out = Packet.typ_raw buf ∧
      Packet.internal out = Packet.internal buf ∧
      Packet.offset out = Packet.offset buf ∧
      Packet.response out = Packet.response buf ∧
      Packet.acknum out = Packet.acknum buf) ∧
    (∀ v out, Packet.set_data_length buf v = .ok out →
      Packet.id_length_raw out = Packet.id_length_raw buf ∧
      Packet.response out = Packet.response buf ∧
      Packet.acknum out = Packet.acknum buf ∧
      Packet.typ_raw out = 0 ∧
      Packet.internal out = false ∧
      Packet.offset out = false) := by
  obtain ⟨a, b, c, t, rfl⟩ := three_cons_of_len buf hlen
  have decNe : ∀ k j : Nat, j ≠ k → (decide (k = j) : Bool) = false := by
    intro k j hj
    simp only [decide_eq_false_iff_not]
    omega
  refine ⟨?_, ?_, ?_, ?_, ?_, ?_, ?_⟩
  · -- set_typ
    intro ty hty
    have hmod : (ty.wire_type <<< 2) % 256 = ty.wire_type <<< 2 := by
      apply Nat.mod_eq_of_lt
      have : ty.wire_type <<< 2 = ty.wire_type * 2 ^ 2 := Nat.shiftLeft_eq _ 2
      omega
    have hset : Packet.set_typ (a :: b :: c :: t) ty =
        a :: ((b &&& 0xC3) ||| ((ty.wire_type <<< 2) % 256)) :: c :: t := rfl
    have hbit : ∀ j, j = 0 ∨ j = 1 ∨ j = 6 ∨ j = 7 →
        ((b &&& 0xC3) ||| ((ty.wire_type <<< 2) % 256)).testBit j = b.testBit j := by
      intro j hj
      rw [hmod]
      rcases hj with rfl | rfl | rfl | rfl
      · exact testBit_rmw _ _ _ _ (by decide)
          (testBit_shifted_small _ 4 2 0 hty (by omega))
      · exact testBit_rmw _ _ _ _ (by decide)
          (testBit_shifted_small _ 4 2 1 hty (by omega))
      · exact testBit_rmw _ _ _ _ (by decide)
          (testBit_shifted_small _ 4 2 6 hty (by omega))
      · exact testBit_rmw _ _ _ _ (by decide)
          (testBit_shifted_small _ 4 2 7 hty (by omega))
    rw [hset]
    refine ⟨?_, ?_, ?_, rfl, rfl, rfl⟩
    · rw [data_length_cons, data_length_cons]
      exact dataLengthWord_eq a _ b (fun j hj => hbit j (by omega))
    · rw [internal_cons, internal_cons]
      exact congrArg (fun z => z != 0)
        (maskWindow_eq _ b 6 1 (fun j h1 h2 => hbit j (by omega)))
    · rw [offset_cons, offset_cons]
      exact congrArg (fun z => z != 0)
        (maskWindow_eq _ b 7 1 (fun j h1 h2 => hbit j (by omega)))
  · -- set_internal
    intro v
    cases v
    · have hset : Packet.set_internal (a :: b :: c :: t) false =
          a :: (b &&& 0xBF) :: c :: t := rfl
      have hbit2 : ∀ j, j ≠ 6 → j < 8 → (b &&& 0xBF).testBit j = b.testBit j := by
        intro j hj h8
        apply testBit_and_of_true
        interval_cases j <;> first | decide | exact absurd rfl hj
      rw [hset]
      refine ⟨?_, ?_, ?_, rfl, rfl, rfl⟩
      · rw [data_length_cons, data_length_cons]
        exact dataLengthWord_eq a _ b (fun j hj => hbit2 j (by omega) (by omega))
      · rw [typ_raw_cons, typ_raw_cons]
        exact maskWindow_eq _ b 2 4 (fun j h1 h2 => hbit2 j (by omega) (by omega))
      · rw [offset_cons, offset_cons]
        exact congrArg (fun z => z != 0)
          (maskWindow_eq _ b 7 1 (fun j h1 h2 => hbit2 j (by omega) (by omega)))
    · have hset : Packet.set_internal (a :: b :: c :: t) true =
          a :: (b ||| 0x40) :: c :: t := rfl
      have hbit2 : ∀ j, j ≠ 6 → (b ||| 0x40).testBit j = b.testBit j := by
        intro j hj
        apply testBit_or_of_false
        rw [show (0x40 : Nat) = 2 ^ 6 from rfl, Nat.testBit_two_pow]
        exact decNe 6 j hj
      rw [hset]
      refine ⟨?_, ?_, ?_, rfl, rfl, rfl⟩
      · rw [data_length_cons, data_length_cons]
        exact dataLengthWord_eq a _ b (fun j hj => hbit2 j (by omega))
      · rw [typ_raw_cons, typ_raw_cons]
        exact maskWindow_eq _ b 2 4 (fun j h1 h2 => hbit2 j (by omega))
      · rw [offset_cons, offset_cons]
        exact congrArg (fun z => z != 0)
          (maskWindow_eq _ b 7 1 (fun j h1 h2 => hbit2 j (by omega)))
  · -- set_offset
    intro v
    cases v
    · have hset : Packet.set_offset (a :: b :: c :: t) false =
          a :: (b &&& 0x7F) :: c :: t := rfl
      have hbit2 : ∀ j, j ≠ 7 → j < 8 → (b &&& 0x7F).testBit j = b.testBit j := by
        intro j hj h8
        apply testBit_and_of_true
        interval_cases j <;> first | decide | exact absurd rfl hj
      rw [hset]
      refine ⟨?_, ?_, ?_, rfl, rfl, rfl⟩
      · rw [data_length_cons, data_length_cons]
        exact dataLengthWord_eq a _ b (fun j hj => hbit2 j (by omega) (by omega))
      · rw [typ_raw_cons, typ_raw_cons]
        exact maskWindow_eq _ b 2 4 (fun j h1 h2 => hbit2 j (by omega) (by omega))
      · rw [internal_cons, internal_cons]
        exact congrArg (fun z => z != 0)
          (maskWindow_eq _ b 6 1 (fun j h1 h2 => hbit2 j (by omega) (by omega)))
    · have hset : Packet.set_offset (a :: b :: c :: t) true =
          a :: (b ||| 0x80) :: c :: t := rfl
      have hbit2 : ∀ j, j ≠ 7 → (b ||| 0x80).testBit j = b.testBit j := by
        intro j hj
        apply testBit_or_of_false
        rw [show (0x80 : Nat) = 2 ^ 7 from rfl, Nat.testBit_two_pow]
        exact decNe 7 j hj
      rw [hset]
      refine ⟨?_, ?_, ?_, rfl, rfl, rfl⟩
      · rw [data_length_cons, data_length_cons]
        exact dataLengthWord_eq a _ b (fun j hj => hbit2 j (by omega))
      · rw [typ_raw_cons, typ_raw_cons]
        exact maskWindow_eq _ b 2 4 (fun j h1 h2 => hbit2 j (by omega))
      · rw [internal_cons, internal_cons]
        exact congrArg (fun z => z != 0)
          (maskWindow_eq _ b 6 1 (fun j h1 h2 => hbit2 j (by omega)))
  · -- set_response
    intro v
    cases v
    · have hset : Packet.set_response (a :: b :: c :: t) false =
          a :: b :: (c &&& 0xEF) :: t := rfl
      have hbit2 : ∀ j, j ≠ 4 → j < 8 → (c &&& 0xEF).testBit j = c.testBit j := by
        intro j hj h8
        apply testBit_and_of_true
        interval_cases j <;> first | decide | exact absurd rfl hj
      rw [hset]
      refine ⟨rfl, rfl, rfl, rfl, ?_, ?_⟩
      · rw [id_length_raw_cons, id_length_raw_cons]
        exact maskWindow_eq _ c 0 4 (fun j h1 h2 => hbit2 j (by omega) (by omega))
      · rw [acknum_cons, acknum_cons]
        exact maskWindow_eq _ c 5 3 (fun j h1 h2 => hbit2 j (by omega) (by omega))
    · have hset : Packet.set_response (a :: b :: c :: t) true =
          a :: b :: (c ||| 0x10) :: t := rfl
      have hbit2 : ∀ j, j ≠ 4 → (c ||| 0x10).testBit j = c.testBit j := by
        intro j hj
        apply testBit_or_of_false
        rw [show (0x10 : Nat) = 2 ^ 4 from rfl, Nat.testBit_two_pow]
        exact decNe 4 j hj
      rw [hset]
      refine ⟨rfl, rfl, rfl, rfl, ?_, ?_⟩
      · rw [id_length_raw_cons, id_length_raw_cons]
        exact maskWindow_eq _ c 0 4 (fun j h1 h2 => hbit2 j (by omega))
      · rw [acknum_cons, acknum_cons]
        exact maskWindow_eq _ c 5 3 (fun j h1 h2 => hbit2 j (by omega))
  · -- set_acknum
    intro v
    have hset : Packet.set_acknum (a :: b :: c :: t) v =
        a :: b :: ((c &&& 0x1F) ||| ((v &&& 0x07) <<< 5)) :: t := rfl
    have hv3 : v &&& 0x07 < 2 ^ 3 := by
      rw [show (0x07 : Nat) = 2 ^ 3 - 1 from rfl]
      exact Nat.and_lt_two_pow v (by decide)
    have hbit2 : ∀ j, j < 5 →
        ((c &&& 0x1F) ||| ((v &&& 0x07) <<< 5)).testBit j = c.testBit j := by
      intro j hj
      apply testBit_rmw
      · interval_cases j <;> decide
      · exact testBit_shifted_small _ 3 5 j hv3 (by omega)
    rw [hset]
    refine ⟨rfl, rfl, rfl, rfl, ?_, ?_⟩
    · rw [id_length_raw_cons, id_length_raw_cons]
      exact maskWindow_eq _ c 0 4 (fun j h1 h2 => hbit2 j (by omega))
    · rw [response_cons, response_cons]
      exact congrArg (fun z => z != 0)
        (maskWindow_eq _ c 4 1 (fun j h1 h2 => hbit2 j (by omega)))
  · -- set_id_length
    intro v out hout
    unfold Packet.set_id_length Packet.MAX_MSG_ID_SIZE at hout
    by_cases h : v = 0 ∨ 15 < v
    · simp [h] at hout
    · rw [if_neg h] at hout
      injection hout with hout
      subst hout
      have hset : (a :: b :: c :: t).set 2
          ((a :: b :: c :: t).getD 2 0 &&& 0xF0 ||| (v &&& 0x0F)) =
          a :: b :: ((c &&& 0xF0) ||| (v &&& 0x0F)) :: t := rfl
      have hv4 : v &&& 0x0F < 2 ^ 4 := by
        rw [show (0x0F : Nat) = 2 ^ 4 - 1 from rfl]
        exact Nat.and_lt_two_pow v (by decide)
      have hbit2 : ∀ j, 4 ≤ j → j < 8 →
          ((c &&& 0xF0) ||| (v &&& 0x0F)).testBit j = c.testBit j := by
        intro j h4 h8
        apply testBit_rmw
        · interval_cases j <;> decide
        · exact Nat.testBit_lt_two_pow
            (lt_of_lt_of_le hv4 (Nat.pow_le_pow_right (by omega) h4))
      rw [hset]
      refine ⟨rfl, rfl, rfl, rfl, ?_, ?_⟩
      · rw [response_cons, response_cons]
        exact congrArg (fun z => z != 0)
          (maskWindow_eq _ c 4 1 (fun j h1 h2 => hbit2 j (by omega) (by omega)))
      · rw [acknum_cons, acknum_cons]
        exact maskWindow_eq _ c 5 3 (fun j h1 h2 => hbit2 j (by omega) (by omega))
  · -- set_data_length
    intro v out hout
    unfold Packet.set_data_length Packet.MAX_PAYLOAD_SIZE at hout
    by_cases h : 1024 < v
    · simp [h] at hout
    · rw [if_neg h] at hout
      injection hout with hout
      subst hout
      have hmask : (0x3FF : Nat) = 2 ^ 10 - 1 := rfl
      have hwlt : v &&& 0x3FF < 1024 := by
        rw [hmask, Nat.and_pow_two_sub_one_eq_mod]
        omega
      have hdiv : (v &&& 0x3FF) >>> 8 = (v &&& 0x3FF) / 256 :=
        Nat.shiftRight_eq_div_pow _ 8
      have hhi : ((v &&& 0x3FF) >>> 8) % 256 = (v &&& 0x3FF) >>> 8 :=
        Nat.mod_eq_of_lt (by omega)
      have hset : Packet.writeU16LE (a :: b :: c :: t) 0 (v &&& 0x3FF) =
          ((v &&& 0x3FF) % 256) :: (((v &&& 0x3FF) >>> 8) % 256) :: c :: t := rfl
      rw [hset, hhi]
      refine ⟨rfl, rfl, rfl, ?_, ?_, ?_⟩
      · rw [typ_raw_cons]
        rw [show ((v &&& 0x3FF) >>> 8) >>> 2 = ((v &&& 0x3FF) / 256) / 4 by
          rw [Nat.shiftRight_eq_div_pow, Nat.shiftRight_eq_div_pow]]
        rw [show (v &&& 0x3FF) / 256 / 4 = 0 by omega]
        decide
      · rw [internal_cons]
        rw [show ((v &&& 0x3FF) >>> 8) >>> 6 = ((v &&& 0x3FF) / 256) / 64 by
          rw [Nat.shiftRight_eq_div_pow, Nat.shiftRight_eq_div_pow]]
        rw [show (v &&& 0x3FF) / 256 / 64 = 0 by omega]
        decide
      · rw [offset_cons]
        rw [show ((v &&& 0x3FF) >>> 8) >>> 7 = ((v &&& 0x3FF) / 256) / 128 by
          rw [Nat.shiftRight_eq_div_pow, Nat.shiftRight_eq_div_pow]]
        rw [show (v &&& 0x3FF) / 256 / 128 = 0 by omega]
        decide

/-- C1 counterexample: on the buffer 00 3C 00 the type field reads 15, but
after set_data_length(1) the buffer is 01 00 00 and the type field reads 0:
set_data_length disturbed a sibling field of byte 1. -/
theorem set_data_length_clobbers_typ :
    Packet.typ_raw [0, 0x3C, 0] = 15 ∧
    Packet.set_data_length [0, 0x3C, 0] 1 = .ok [1, 0, 0] ∧
    Packet.typ_raw [1, 0, 0] = 0 :=
  ⟨rfl, rfl, rfl⟩

/-- C1 witness: sibling preservation applied to the buffer 00 00 00, with
the set_typ, set_id_length, and set_data_length hypotheses discharged at
type I8, id length 3, and data length 1. -/
theorem setter_sibling_preservation_witness :
    Packet.data_length (Packet.set_typ [0, 0, 0] .I8) = Packet.data_length [0, 0, 0] ∧
    Packet.response (Packet.set_acknum [0, 0, 0] 3) = Packet.response [0, 0, 0] ∧
    Packet.acknum [0, 0, 3] = Packet.acknum [0, 0, 0] ∧
    Packet.id_length_raw [1, 0, 0] = Packet.id_length_raw [0, 0, 0] := by
  have h := setter_sibling_preservation [0, 0, 0] (by decide)
  exact ⟨(h.1 .I8 (by decide)).1, (h.2.2.2.2.1 3).2.2.2.2.2,
    (h.2.2.2.2.2.1 3 [0, 0, 3] rfl).2.2.2.2.2,
    (h.2.2.2.2.2.2 1 [1, 0, 0] rfl).1⟩

/-- C8: MessageId::new returns None exactly on the empty slice, slices
longer than 15 bytes, and the single null byte; on every other slice it
returns an identity wrapping exactly the input bytes. -/
theorem msg_id_new_characterization (bs : List Nat) :
    MessageId.new bs =
      if bs = [] ∨ 15 < bs.length ∨ bs = [0] then none else some ⟨bs⟩ := by
  unfold MessageId.new MessageId.MAX_SIZE
  rcases bs with _ | ⟨a, t⟩
  · simp
  · rcases t with _ | ⟨b, u⟩
    · by_cases h : a = 0 <;> simp [h]
    · have h1 : ¬ (a :: b :: u = ([] : List Nat)) := by simp
      have h2 : ¬ (a :: b :: u = ([0] : List Nat)) := by simp
      have h4 : ¬ ((u.length + 1 + 1 : Nat) = 1) := by omega
      simp [h1, h2, h4]

/-- C9 (amended): the spec formula for the COBS worst-case encoded length,
`max_encoded_len n = n + ceil(n/254) + 1`, and the lower bound
`max_encoded_len n ≥ n + 2`, which holds for n ≥ 1 (at n = 0 the formula
gives 1). -/
theorem max_encoded_len_formula (n : Nat) :
    Framing.max_encoded_len n = n + (n + 253) / 254 + 1 ∧
    (1 ≤ n → n + 2 ≤ Framing.max_encoded_len n) := by
  refine ⟨rfl, fun h => ?_⟩
  unfold Framing.max_encoded_len
  have h1 : 1 ≤ (n + 253) / 254 := by
    have : 254 ≤ n + 253 := by omega
    omega
  omega

/-- C9 witness: the bound instantiated at n = 9 (the test frame length). -/
theorem max_encoded_len_formula_witness :
    9 + 2 ≤ Framing.max_encoded_len 9 :=
  (max_encoded_len_formula 9).2 (by decide)

/-- C9 counterexample: at raw length 0 the spec formula yields 1, which is
not at least 2 bytes more than the raw length. -/
theorem max_encoded_len_zero :
    Framing.max_encoded_len 0 = 1 ∧ ¬ (0 + 2 ≤ Framing.max_encoded_len 0) := by
  exact ⟨rfl, by decide⟩

theorem bindOk {ε α β : Type} (x : α) (f : α → Except ε β) :
    (Except.ok x >>= f) = f x := rfl

theorem bindErr {ε α β : Type} (e : ε) (f : α → Except ε β) :
    ((Except.error e : Except ε α) >>= f) = .error e := rfl

/-- C4 (amended): the checks of Packet::new, flattened: MissingHeader below
3 bytes; else MissingChecksum below 5; else InvalidMessageIdLength when the
id_length field is 0 (a case the original claim omitted); else
IncompletePayload when the buffer cannot hold header, id, payload and
checksum; else InvalidChecksum when the stored trailing checksum differs
from the computed CRC; else success. -/
theorem new_characterization (buf : List Nat) :
    Packet.new buf =
      if buf.length < 3 then .error .MissingHeader
      else if buf.length < 5 then .error .MissingChecksum
      else if Packet.id_length_raw buf = 0 then .error .InvalidMessageIdLength
      else if buf.length < 5 + Packet.id_length_raw buf + Packet.data_length buf
        then .error .IncompletePayload
      else if crc16 (buf.take (3 + Packet.id_length_raw buf + Packet.data_length buf)) ≠
          Packet.readU16LE buf (3 + Packet.id_length_raw buf + Packet.data_length buf)
        then .error .InvalidChecksum
      else .ok buf := by
  by_cases h1 : buf.length < 3
  · rw [if_pos h1]
    unfold Packet.new Packet.check_len Packet.HEADER_SIZE
    rw [if_pos h1]
    rfl
  rw [if_neg h1]
  by_cases h2 : buf.length < 5
  · rw [if_pos h2]
    unfold Packet.new Packet.check_len Packet.HEADER_SIZE Packet.CHECKSUM_SIZE
    rw [if_neg h1, if_pos (show buf.length < 3 + 2 by omega)]
    rfl
  rw [if_neg h2]
  have hcl : Packet.check_len buf = .ok () := by
    unfold Packet.check_len Packet.HEADER_SIZE Packet.CHECKSUM_SIZE
    rw [if_neg h1, if_neg (show ¬ buf.length < 3 + 2 by omega)]
  by_cases h3 : Packet.id_length_raw buf = 0
  · rw [if_pos h3]
    have hidl : Packet.id_length buf = .error .InvalidMessageIdLength := by
      unfold Packet.id_length
      rw [if_pos h3]
    unfold Packet.new Packet.check_payload_length
    rw [hcl, hidl]
    rfl
  rw [if_neg h3]
  have hidl : Packet.id_length buf = .ok (Packet.id_length_raw buf) := by
    unfold Packet.id_length
    rw [if_neg h3]
  by_cases h4 : buf.length < 5 + Packet.id_length_raw buf + Packet.data_length buf
  · rw [if_pos h4]
    have hcp : Packet.check_payload_length buf = .error .IncompletePayload := by
      unfold Packet.check_payload_length Packet.buffer_len Packet.BASE_PACKET_SIZE
        Packet.HEADER_SIZE Packet.CHECKSUM_SIZE
      rw [hidl, bindOk]
      rw [if_pos (show buf.length <
        3 + 2 + Packet.id_length_raw buf + Packet.data_length buf by omega)]
      rfl
    unfold Packet.new
    rw [hcl, hcp]
    rfl
  rw [if_neg h4]
  have hcp : Packet.check_payload_length buf = .ok () := by
    unfold Packet.check_payload_length Packet.buffer_len Packet.BASE_PACKET_SIZE
      Packet.HEADER_SIZE Packet.CHECKSUM_SIZE
    rw [hidl, bindOk]
    rw [if_neg (show ¬ buf.length <
      3 + 2 + Packet.id_length_raw buf + Packet.data_length buf by omega)]
    rfl
  have hcs : Packet.checksum buf =
      .ok (Packet.readU16LE buf (3 + Packet.id_length_raw buf + Packet.data_length buf)) := by
    unfold Packet.checksum Packet.HEADER_SIZE
    rw [hidl, bindOk]
    rfl
  have hcc : Packet.compute_checksum buf =
      .ok (crc16 (buf.take (3 + Packet.id_length_raw buf + Packet.data_length buf))) := by
    unfold Packet.compute_checksum Packet.HEADER_SIZE
    rw [hidl, bindOk]
    rfl
  by_cases h5 : crc16 (buf.take (3 + Packet.id_length_raw buf + Packet.data_length buf)) ≠
      Packet.readU16LE buf (3 + Packet.id_length_raw buf + Packet.data_length buf)
  · rw [if_pos h5]
    have hck : Packet.check_checksum buf = .error .InvalidChecksum := by
      unfold Packet.check_checksum
      rw [hcs, bindOk, hcc, bindOk, if_pos h5]
      rfl
    unfold Packet.new
    rw [hcl, hcp, hck]
    rfl
  · rw [if_neg h5]
    have hck : Packet.check_checksum buf = .ok () := by
      unfold Packet.check_checksum
      rw [hcs, bindOk, hcc, bindOk, if_neg h5]
      rfl
    unfold Packet.new
    rw [hcl, hcp, hck]
    rfl

/-- C4 counterexample: the 5-byte buffer 00 00 00 9C CC has id_length 0 but
satisfies every check the claim lists (length 5, room for 0 id and payload
bytes, and its stored checksum 0xCC9C equals the CRC over the 3 header
bytes), yet Packet::new rejects it with InvalidMessageIdLength, an outcome
the claim does not account for. -/
theorem new_id_zero_rejected :
    Packet.new [0, 0, 0, 156, 204] = .error .InvalidMessageIdLength ∧
    Packet.readU16LE [0, 0, 0, 156, 204] 3 = crc16 [0, 0, 0] ∧
    Packet.id_length_raw [0, 0, 0, 156, 204] = 0 ∧
    5 ≤ ([0, 0, 0, 156, 204] : List Nat).length :=
  ⟨rfl, rfl, rfl, by decide⟩

set_option maxRecDepth 40000 in
/-- C5: the concrete scenario. Building the i8 packet (id "abc", type I8,
payload 0x2A, acknum 3, data_length 1, flags clear) through the mutators
computes checksum 0xA3B8 and yields the 9-byte frame; COBS-framing it
yields exactly 0A 01 14 63 61 62 63 2A B8 A3 00; parsing the de-framed
buffer reproduces every field. -/
theorem concrete_i8_scenario :
    buildI8 = .ok i8Frame ∧
    Packet.compute_checksum i8Frame = .ok 0xA3B8 ∧
    Framing.encode_buf i8Frame =
      [0x0A, 0x01, 0x14, 0x63, 0x61, 0x62, 0x63, 0x2A, 0xB8, 0xA3, 0x00] ∧
    Packet.new i8Frame = .ok i8Frame ∧
    Packet.data_length i8Frame = 1 ∧
    Packet.typ i8Frame = .ok .I8 ∧
    Packet.msg_id i8Frame = .ok ⟨[0x61, 0x62, 0x63]⟩ ∧
    Packet.payload i8Frame = .ok [0x2A] ∧
    Packet.acknum i8Frame = 3 ∧
    Packet.checksum i8Frame = .ok 0xA3B8 := by
  refine ⟨rfl, rfl, rfl, rfl, rfl, rfl, rfl, rfl, rfl, rfl⟩

/-- C10: the cumulative packet counters change only when a frame completes
in state CrcB1, and then exactly one of them is incremented by one
(saturating) depending on whether Packet::new accepts the accumulated
bytes; a decode call that fails with InsufficientBufferSize leaves both
counters, the parse state, and the accumulation cursor unchanged; and
reset() never changes either counter. -/
theorem decoder_counter_discipline (d : Decoder) (b : Nat) :
    ((Decoder.decode d b).1.valid_pkt_count =
      if b ≠ 0 ∧ d.state = .CrcB1 ∧ d.bytes_read < d.packet_storage.length ∧
          okB (Packet.new ((d.packet_storage.set d.bytes_read
            (if 1 < d.frame_offset then b else 0)).take
              (satSucc usizeMax d.bytes_read))) = true
        then satSucc usizeMax d.valid_pkt_count else d.valid_pkt_count) ∧
    ((Decoder.decode d b).1.invalid_pkt_count =
      if b ≠ 0 ∧ d.state = .CrcB1 ∧ d.bytes_read < d.packet_storage.length ∧
          okB (Packet.new ((d.packet_storage.set d.bytes_read
            (if 1 < d.frame_offset then b else 0)).take
              (satSucc usizeMax d.bytes_read))) = false
        then satSucc usizeMax d.invalid_pkt_count else d.invalid_pkt_count) ∧
    ((Decoder.decode d b).2 = .error .InsufficientBufferSize →
      (Decoder.decode d b).1.valid_pkt_count = d.valid_pkt_count ∧
      (Decoder.decode d b).1.invalid_pkt_count = d.invalid_pkt_count ∧
      (Decoder.decode d b).1.state = d.state ∧
      (Decoder.decode d b).1.bytes_read = d.bytes_read) ∧
    (d.reset.valid_pkt_count = d.valid_pkt_count ∧
     d.reset.invalid_pkt_count = d.invalid_pkt_count) := by
  rcases d with ⟨st, fo, ibr, dbr, br, vc, ic, dl, off, il, ps⟩
  by_cases hb : b = 0
  · simp [Decoder.decode, hb, Decoder.reset]
  · by_cases hcap : br < ps.length
    · cases st <;> by_cases hfo : 1 < fo <;>
        simp only [Decoder.decode, Decoder.machineStep, Decoder.feed, Decoder.reset,
          hb, hfo, if_true, if_false, ite_true, ite_false, not_false_iff,
          ge_iff_le, show ¬ (ps.length ≤ br) by omega] <;>
        simp [hb, hfo, hcap] <;>
        first
          | rfl
          | (rcases hpn : Packet.new ((ps.set br b).take (satSucc usizeMax br)) with e | p <;>
              simp [hpn, okB] <;> done)
          | (rcases hpn : Packet.new ((ps.set br 0).take (satSucc usizeMax br)) with e | p <;>
              simp [hpn, okB] <;> done)
          | (split_ifs <;> simp)
    · cases st <;> by_cases hfo : 1 < fo <;>
        simp [Decoder.decode, Decoder.machineStep, Decoder.feed, Decoder.reset,
          hb, hfo, show ps.length ≤ br by omega, hcap]

/-- C10 witness: a decoder over an empty storage buffer in state HeaderB0
fails with InsufficientBufferSize on byte 5 and leaves counters, state,
and cursor unchanged. -/
theorem decoder_counter_discipline_witness :
    (Decoder.decode { Decoder.new [] with state := .HeaderB0 } 5).1.valid_pkt_count = 0 ∧
    (Decoder.decode { Decoder.new [] with state := .HeaderB0 } 5).1.invalid_pkt_count = 0 ∧
    (Decoder.decode { Decoder.new [] with state := .HeaderB0 } 5).1.bytes_read = 0 := by
  have h := decoder_counter_discipline { Decoder.new [] with state := .HeaderB0 } 5
  have h3 := h.2.2.1 rfl
  exact ⟨h3.1, h3.2.1, h3.2.2.2⟩


theorem xor_cancel_right (a b c : Nat) (h : a ^^^ c = b ^^^ c) : a = b := by
  have h2 := congrArg (fun z => z ^^^ c) h
  simpa [Nat.xor_assoc] using h2

theorem xor_cancel_left (a b c : Nat) (h : c ^^^ a = c ^^^ b) : a = b := by
  rw [Nat.xor_comm c a, Nat.xor_comm c b] at h
  exact xor_cancel_right a b c h

theorem mod_xor_small (x y n : Nat) (hy : y < 2 ^ n) :
    (x ^^^ y) % 2 ^ n = (x % 2 ^ n) ^^^ y := by
  apply Nat.eq_of_testBit_eq
  intro i
  simp only [Nat.testBit_mod_two_pow, Nat.testBit_xor]
  by_cases hi : i < n
  · simp [hi]
  · have hyi : y.testBit i = false :=
      Nat.testBit_lt_two_pow
        (lt_of_lt_of_le hy (Nat.pow_le_pow_right (by omega) (by omega)))
    simp [hi, hyi]

theorem and_high_bit (c : Nat) (h : c < 65536) :
    (c &&& 0x8000 = 0) ↔ c < 32768 := by
  constructor
  · intro h0
    by_contra hge
    have hbit : c.testBit 15 = true := by
      rw [Nat.testBit_to_div_mod]
      simp only [decide_eq_true_eq]
      rw [show (2 : Nat) ^ 15 = 32768 from rfl]
      omega
    have h15 : (c &&& 0x8000).testBit 15 = true := by
      rw [Nat.testBit_and, hbit]
      decide
    rw [h0] at h15
    simp at h15
  · intro hlt
    apply Nat.eq_of_testBit_eq
    intro i
    rw [show (0x8000 : Nat) = 2 ^ 15 from rfl, Nat.testBit_and, Nat.testBit_two_pow]
    simp only [Nat.zero_testBit]
    by_cases hi : (15 : Nat) = i
    · subst hi
      simp [Nat.testBit_lt_two_pow (show c < 2 ^ 15 from hlt)]
    · simp [hi]

theorem crcStepBit_arith (c : Nat) (hc : c < 65536) :
    crcStepBit c = if c < 32768 then 2 * c else (2 * c - 65536) ^^^ 0x1021 := by
  unfold crcStepBit
  have hsh : c <<< 1 = 2 * c := by rw [Nat.shiftLeft_eq]; omega
  have hm : (0xFFFF : Nat) = 2 ^ 16 - 1 := rfl
  by_cases hlt : c < 32768
  · rw [if_pos ((and_high_bit c hc).2 hlt), if_pos hlt, hsh, hm,
      Nat.and_pow_two_sub_one_eq_mod]
    exact Nat.mod_eq_of_lt (by omega)
  · have hne : ¬ (c &&& 0x8000 = 0) := fun h0 => hlt ((and_high_bit c hc).1 h0)
    rw [if_neg hne, if_neg hlt, hsh, hm, Nat.and_pow_two_sub_one_eq_mod,
      mod_xor_small (2 * c) 0x1021 16 (by norm_num)]
    refine congrArg (fun z => z ^^^ 0x1021) ?_
    rw [show (2 : Nat) ^ 16 = 65536 from rfl]
    omega

theorem crcStepBit_lt_size (c : Nat) : crcStepBit c < 65536 := by
  unfold crcStepBit
  have hm : (0xFFFF : Nat) = 2 ^ 16 - 1 := rfl
  split <;>
    (rw [hm, Nat.and_pow_two_sub_one_eq_mod]; exact Nat.mod_lt _ (by norm_num))

theorem crcStepBit_inj (c1 c2 : Nat) (h1 : c1 < 65536) (h2 : c2 < 65536)
    (h : crcStepBit c1 = crcStepBit c2) : c1 = c2 := by
  rw [crcStepBit_arith c1 h1, crcStepBit_arith c2 h2] at h
  by_cases hc1 : c1 < 32768 <;> by_cases hc2 : c2 < 32768
  · rw [if_pos hc1, if_pos hc2] at h
    omega
  · rw [if_pos hc1, if_neg hc2] at h
    have hodd : ((2 * c2 - 65536) ^^^ 0x1021) % 2 = 1 := by
      rw [Nat.xor_mod_two_eq_one]
      omega
    omega
  · rw [if_neg hc1, if_pos hc2] at h
    have hodd : ((2 * c1 - 65536) ^^^ 0x1021) % 2 = 1 := by
      rw [Nat.xor_mod_two_eq_one]
      omega
    omega
  · rw [if_neg hc1, if_neg hc2] at h
    have := xor_cancel_right _ _ _ h
    omega

theorem crcIter_lt_size (n c : Nat) (h : c < 65536) : crcIter n c < 65536 := by
  induction n generalizing c with
  | zero => exact h
  | succ n ih => exact ih _ (crcStepBit_lt_size c)

theorem crcIter_inj (n c1 c2 : Nat) (h1 : c1 < 65536) (h2 : c2 < 65536)
    (h : crcIter n c1 = crcIter n c2) : c1 = c2 := by
  induction n generalizing c1 c2 with
  | zero => exact h
  | succ n ih =>
    exact crcStepBit_inj c1 c2 h1 h2
      (ih _ _ (crcStepBit_lt_size c1) (crcStepBit_lt_size c2) h)

theorem byte_shift_lt (b : Nat) : (b % 256) <<< 8 < 65536 := by
  rw [Nat.shiftLeft_eq]
  have : b % 256 < 256 := Nat.mod_lt _ (by norm_num)
  omega

theorem crcByte_lt_size (c b : Nat) (h : c < 65536) : crcByte c b < 65536 := by
  unfold crcByte
  exact crcIter_lt_size 8 _
    (Nat.xor_lt_two_pow (n := 16) h (byte_shift_lt b))

theorem crcByte_inj_state (b c1 c2 : Nat) (h1 : c1 < 65536) (h2 : c2 < 65536)
    (h : crcByte c1 b = crcByte c2 b) : c1 = c2 := by
  unfold crcByte at h
  have hx := crcIter_inj 8 _ _
    (Nat.xor_lt_two_pow (n := 16) h1 (byte_shift_lt b))
    (Nat.xor_lt_two_pow (n := 16) h2 (byte_shift_lt b)) h
  exact xor_cancel_right _ _ _ hx

theorem crcByte_ne_byte (c b1 b2 : Nat) (hc : c < 65536)
    (hb : b1 % 256 ≠ b2 % 256) : crcByte c b1 ≠ crcByte c b2 := by
  intro h
  unfold crcByte at h
  have hx := crcIter_inj 8 _ _
    (Nat.xor_lt_two_pow (n := 16) hc (byte_shift_lt b1))
    (Nat.xor_lt_two_pow (n := 16) hc (byte_shift_lt b2)) h
  have hsh := xor_cancel_left _ _ _ hx
  rw [Nat.shiftLeft_eq, Nat.shiftLeft_eq] at hsh
  exact hb (by omega)

theorem foldl_crcByte_lt (bs : List Nat) (c : Nat) (h : c < 65536) :
    bs.foldl crcByte c < 65536 := by
  induction bs generalizing c with
  | nil => exact h
  | cons b bs ih =>
    simp only [List.foldl_cons]
    exact ih _ (crcByte_lt_size c b h)

theorem foldl_crcByte_ne (bs : List Nat) (c1 c2 : Nat) (h1 : c1 < 65536)
    (h2 : c2 < 65536) (hne : c1 ≠ c2) :
    bs.foldl crcByte c1 ≠ bs.foldl crcByte c2 := by
  induction bs generalizing c1 c2 with
  | nil => exact hne
  | cons b bs ih =>
    simp only [List.foldl_cons]
    exact ih _ _ (crcByte_lt_size c1 b h1) (crcByte_lt_size c2 b h2)
      (fun h => hne (crcByte_inj_state b c1 c2 h1 h2 h))

/-- Two byte strings that differ in exactly one byte position (modulo 256)
have different CRC-16/CCITT-FALSE checksums. -/
theorem crc16_single_byte_flip (p s : List Nat) (b1 b2 : Nat)
    (hb : b1 % 256 ≠ b2 % 256) :
    crc16 (p ++ b1 :: s) ≠ crc16 (p ++ b2 :: s) := by
  unfold crc16
  rw [List.foldl_append, List.foldl_append]
  simp only [List.foldl_cons]
  have hC : p.foldl crcByte 0xFFFF < 65536 := foldl_crcByte_lt p _ (by norm_num)
  exact foldl_crcByte_ne s _ _ (crcByte_lt_size _ b1 hC) (crcByte_lt_size _ b2 hC)
    (crcByte_ne_byte _ b1 b2 hC hb)

theorem getD_set_ne (l : List Nat) (i j x : Nat) (h : i ≠ j) :
    (l.set i x).getD j 0 = l.getD j 0 := by
  simp [List.getD_eq_getElem?_getD, List.getElem?_set_ne h]

theorem getD_set_self (l : List Nat) (i x : Nat) (h : i < l.length) :
    (l.set i x).getD i 0 = x := by
  simp [List.getD_eq_getElem?_getD, List.getElem?_set_self h]

theorem splice_self (l : List Nat) (i : Nat) (h : i < l.length) :
    l = l.take i ++ l.getD i 0 :: l.drop (i + 1) := by
  induction l generalizing i with
  | nil => simp at h
  | cons a t ih =>
    cases i with
    | zero => simp
    | succ n =>
      simp only [List.take_succ_cons, List.drop_succ_cons, List.cons_append,
        List.cons.injEq, true_and]
      have hn : n < t.length := by simpa using h
      have := ih n hn
      simpa using this

theorem take_of_splice (P S : List Nat) (v w : Nat) (h : P.length < w) :
    (P ++ v :: S).take w = P ++ v :: S.take (w - P.length - 1) := by
  rw [List.take_append_eq_append_take]
  rw [List.take_of_length_le (by omega)]
  congr 1
  rw [show w - P.length = (w - P.length - 1) + 1 by omega]
  rfl

theorem crc16_take_flip (buf : List Nat) (i w x : Nat)
    (hilen : i < buf.length) (hiw : i < w)
    (hxb : x % 256 ≠ buf.getD i 0 % 256) :
    crc16 ((buf.set i x).take w) ≠ crc16 (buf.take w) := by
  have hPl : (buf.take i).length = i := by
    rw [List.length_take]
    omega
  have hset := List.set_eq_take_cons_drop x hilen
  have e1 : (buf.set i x).take w =
      buf.take i ++ x :: ((buf.drop (i + 1)).take (w - i - 1)) := by
    rw [hset, take_of_splice _ _ _ _ (by rw [hPl]; omega), hPl]
  have e2 : buf.take w =
      buf.take i ++ buf.getD i 0 :: ((buf.drop (i + 1)).take (w - i - 1)) := by
    conv_lhs => rw [splice_self buf i hilen]
    rw [take_of_splice _ _ _ _ (by rw [hPl]; omega), hPl]
  rw [e1, e2]
  exact crc16_single_byte_flip _ _ _ _ hxb

theorem testBit_xor_bit_ne (v k j : Nat) (h : j ≠ k) :
    (v ^^^ (1 <<< k)).testBit j = v.testBit j := by
  rw [Nat.testBit_xor, Nat.one_shiftLeft, Nat.testBit_two_pow]
  simp [show ¬ (k = j) from fun he => h he.symm]

/-- C6 (amended): for every frame accepted by Packet::new, flipping any
single bit of the header, id, or payload region that lies outside the
data_length field (byte 0 and bits 0-1 of byte 1) and outside the
id_length field (bits 0-3 of byte 2), while leaving the stored checksum
bytes unchanged, makes Packet::new fail with InvalidChecksum. Flips inside
the two length fields change how the buffer is parsed and can fail
differently (see the counterexample). -/
theorem bit_flip_invalid_checksum (buf : List Nat) (i k : Nat)
    (hacc : Packet.new buf = .ok buf)
    (hk : k < 8)
    (hbyte : buf.getD i 0 < 256)
    (hi : i < 3 + Packet.id_length_raw buf + Packet.data_length buf)
    (hfield : (i = 1 ∧ 2 ≤ k) ∨ (i = 2 ∧ 4 ≤ k) ∨ 3 ≤ i) :
    Packet.new (buf.set i (buf.getD i 0 ^^^ (1 <<< k))) =
      .error .InvalidChecksum := by
  have hchar := (new_characterization buf).symm.trans hacc
  have h1 : ¬ buf.length < 3 := by
    intro h
    rw [if_pos h] at hchar
    simp at hchar
  rw [if_neg h1] at hchar
  have h2 : ¬ buf.length < 5 := by
    intro h
    rw [if_pos h] at hchar
    simp at hchar
  rw [if_neg h2] at hchar
  have h3 : ¬ Packet.id_length_raw buf = 0 := by
    intro h
    rw [if_pos h] at hchar
    simp at hchar
  rw [if_neg h3] at hchar
  have h4 : ¬ buf.length < 5 + Packet.id_length_raw buf + Packet.data_length buf := by
    intro h
    rw [if_pos h] at hchar
    simp at hchar
  rw [if_neg h4] at hchar
  have h5 : crc16 (buf.take (3 + Packet.id_length_raw buf + Packet.data_length buf)) =
      Packet.readU16LE buf (3 + Packet.id_length_raw buf + Packet.data_length buf) := by
    by_contra h
    rw [if_pos h] at hchar
    simp at hchar
  have hilen : i < buf.length := by omega
  -- getter stability on the flipped buffer
  have hidr : Packet.id_length_raw (buf.set i (buf.getD i 0 ^^^ (1 <<< k))) =
      Packet.id_length_raw buf := by
    rcases hfield with ⟨hi1, hk2⟩ | ⟨hi2, hk4⟩ | hi3
    · subst hi1
      unfold Packet.id_length_raw
      rw [getD_set_ne _ _ _ _ (by omega)]
    · subst hi2
      unfold Packet.id_length_raw
      rw [getD_set_self _ _ _ hilen]
      exact maskWindow_eq _ _ 0 4 (fun j hj1 hj2 => testBit_xor_bit_ne _ k j (by omega))
    · unfold Packet.id_length_raw
      rw [getD_set_ne _ _ _ _ (by omega)]
  have hdl : Packet.data_length (buf.set i (buf.getD i 0 ^^^ (1 <<< k))) =
      Packet.data_length buf := by
    rcases hfield with ⟨hi1, hk2⟩ | ⟨hi2, hk4⟩ | hi3
    · subst hi1
      unfold Packet.data_length Packet.readU16LE
      rw [getD_set_ne _ _ _ _ (by omega), getD_set_self _ _ _ hilen]
      exact dataLengthWord_eq _ _ _ (fun j hj => testBit_xor_bit_ne _ k j (by omega))
    · subst hi2
      unfold Packet.data_length Packet.readU16LE
      rw [getD_set_ne _ _ _ _ (by omega), getD_set_ne _ _ _ _ (by omega)]
    · unfold Packet.data_length Packet.readU16LE
      rw [getD_set_ne _ _ _ _ (by omega), getD_set_ne _ _ _ _ (by omega)]
  have hstored : Packet.readU16LE (buf.set i (buf.getD i 0 ^^^ (1 <<< k)))
      (3 + Packet.id_length_raw buf + Packet.data_length buf) =
      Packet.readU16LE buf (3 + Packet.id_length_raw buf + Packet.data_length buf) := by
    unfold Packet.readU16LE
    rw [getD_set_ne _ _ _ _ (by omega), getD_set_ne _ _ _ _ (by omega)]
  have hcomp : crc16 ((buf.set i (buf.getD i 0 ^^^ (1 <<< k))).take
      (3 + Packet.id_length_raw buf + Packet.data_length buf)) ≠
      crc16 (buf.take (3 + Packet.id_length_raw buf + Packet.data_length buf)) := by
    apply crc16_take_flip buf i _ _ hilen hi
    have h2k : (1 <<< k) < 2 ^ 8 := by
      rw [Nat.one_shiftLeft]
      exact Nat.pow_lt_pow_right (by omega) hk
    have hxlt : buf.getD i 0 ^^^ (1 <<< k) < 256 :=
      Nat.xor_lt_two_pow (n := 8) hbyte h2k
    have hxne : buf.getD i 0 ^^^ (1 <<< k) ≠ buf.getD i 0 := by
      intro he
      have h0 : buf.getD i 0 ^^^ (1 <<< k) = buf.getD i 0 ^^^ 0 := by
        rw [Nat.xor_zero]
        exact he
      have h1s := xor_cancel_left _ _ _ h0
      rw [Nat.one_shiftLeft] at h1s
      exact absurd h1s (Nat.pos_iff_ne_zero.1 (Nat.pos_pow_of_pos k (by omega)))
    rw [Nat.mod_eq_of_lt hxlt, Nat.mod_eq_of_lt hbyte]
    exact hxne
  rw [new_characterization]
  rw [List.length_set, hidr, hdl]
  rw [if_neg h1, if_neg h2, if_neg h3, if_neg h4]
  have hcond : crc16 ((buf.set i (buf.getD i 0 ^^^ (1 <<< k))).take
      (3 + Packet.id_length_raw buf + Packet.data_length buf)) ≠
      Packet.readU16LE (buf.set i (buf.getD i 0 ^^^ (1 <<< k)))
        (3 + Packet.id_length_raw buf + Packet.data_length buf) := by
    rw [hstored, ← h5]
    exact hcomp
  rw [if_pos hcond]


set_option maxRecDepth 40000 in
/-- C6 counterexample: flipping bit 1 of byte 0 of the valid 9-byte i8
frame (a header bit of the data_length field, checksum bytes untouched)
changes data_length from 1 to 3, and Packet::new fails with
IncompletePayload, not InvalidChecksum. -/
theorem bit_flip_data_length_not_invalid_checksum :
    Packet.new i8Frame = .ok i8Frame ∧
    i8Frame.set 0 (i8Frame.getD 0 0 ^^^ (1 <<< 1)) =
      [0x03, 0x14, 0x63, 0x61, 0x62, 0x63, 0x2A, 0xB8, 0xA3] ∧
    Packet.new [0x03, 0x14, 0x63, 0x61, 0x62, 0x63, 0x2A, 0xB8, 0xA3] =
      .error .IncompletePayload :=
  ⟨rfl, rfl, rfl⟩

set_option maxRecDepth 40000 in
/-- C6 witness: flipping bit 0 of the first message id byte of the valid
i8 frame yields InvalidChecksum. -/
theorem bit_flip_invalid_checksum_witness :
    Packet.new (i8Frame.set 3 (i8Frame.getD 3 0 ^^^ (1 <<< 0))) =
      .error .InvalidChecksum :=
  bit_flip_invalid_checksum i8Frame 3 0 rfl (by decide) (by decide) (by decide)
    (Or.inr (Or.inr (by decide)))

theorem runList_append (d : Decoder) (xs ys : List Nat) :
    Decoder.runList d (xs ++ ys) = Decoder.runList (Decoder.runList d xs) ys := by
  induction xs generalizing d with
  | nil => rfl
  | cons b bs ih =>
    simp only [List.cons_append, Decoder.runList]
    exact ih _

theorem foldl_crc_chunk (c m n b : Nat) :
    List.foldl crcByte c (List.replicate (m + n) b) =
      List.foldl crcByte (List.foldl crcByte c (List.replicate m b))
        (List.replicate n b) := by
  rw [List.replicate_add, List.foldl_append]

set_option maxRecDepth 30000 in
/-- The CRC of the long packet body, computed in bounded-depth chunks. -/
theorem crc16_longBody : crc16 longBody = 33564 := by
  unfold crc16 longBody
  rw [List.foldl_append]
  rw [show List.foldl crcByte 0xFFFF [0xF9, 0x14, 0x01, 0x61] = 14575 from rfl]
  rw [show (249 : Nat) = 32 + (32 + (32 + (32 + (32 + (32 + (32 + 25))))))
    from rfl]
  rw [foldl_crc_chunk,
    show List.foldl crcByte 14575 (List.replicate 32 0x41) = 50369 from rfl]
  rw [foldl_crc_chunk,
    show List.foldl crcByte 50369 (List.replicate 32 0x41) = 33044 from rfl]
  rw [foldl_crc_chunk,
    show List.foldl crcByte 33044 (List.replicate 32 0x41) = 51625 from rfl]
  rw [foldl_crc_chunk,
    show List.foldl crcByte 51625 (List.replicate 32 0x41) = 12196 from rfl]
  rw [foldl_crc_chunk,
    show List.foldl crcByte 12196 (List.replicate 32 0x41) = 45856 from rfl]
  rw [foldl_crc_chunk,
    show List.foldl crcByte 45856 (List.replicate 32 0x41) = 39429 from rfl]
  rw [foldl_crc_chunk,
    show List.foldl crcByte 39429 (List.replicate 32 0x41) = 57701 from rfl]
  rw [show List.foldl crcByte 57701 (List.replicate 25 0x41) = 33564 from rfl]

set_option maxRecDepth 30000 in
/-- The long packet is accepted by Packet::new and is exactly sized. -/
theorem new_longPkt : Packet.new longPkt = .ok longPkt := by
  have hlen : (longPkt : List Nat).length = 255 := rfl
  have hidr : Packet.id_length_raw longPkt = 1 := rfl
  have hdl : Packet.data_length longPkt = 249 := rfl
  have ht : List.take (3 + 1 + 249) longPkt = longBody := rfl
  have hrd : Packet.readU16LE longPkt (3 + 1 + 249) = 33564 := rfl
  rw [new_characterization, hlen, hidr, hdl, ht, hrd, crc16_longBody]
  rw [if_neg (by omega), if_neg (by omega), if_neg (by omega), if_neg (by omega),
    if_neg (by omega)]

set_option maxRecDepth 30000 in
/-- The corrupted frame the decoder accumulates for the long packet (the
spurious zero replaces the high checksum byte) is rejected with
InvalidChecksum. -/
theorem new_corrupted_longFrame :
    Packet.new (longBody ++ [0x1C, 0x00]) = .error .InvalidChecksum := by
  have hlen : ((longBody ++ [0x1C, 0x00] : List Nat)).length = 255 := rfl
  have hidr : Packet.id_length_raw (longBody ++ [0x1C, 0x00]) = 1 := rfl
  have hdl : Packet.data_length (longBody ++ [0x1C, 0x00]) = 249 := rfl
  have ht : List.take (3 + 1 + 249) (longBody ++ [0x1C, 0x00]) = longBody := rfl
  have hrd : Packet.readU16LE (longBody ++ [0x1C, 0x00]) (3 + 1 + 249) = 28 := rfl
  rw [new_characterization, hlen, hidr, hdl, ht, hrd, crc16_longBody]
  rw [if_neg (by omega), if_neg (by omega), if_neg (by omega), if_neg (by omega),
    if_pos (by omega)]

/-- A decode call in state CrcB1 whose COBS offset has expired feeds the
substituted zero byte, completes the frame, and counts it invalid when
Packet::new rejects the accumulated bytes. -/
theorem decode_crcb1_sub (d : Decoder) (b : Nat) (hb : b ≠ 0)
    (hfo : ¬ 1 < d.frame_offset) (hst : d.state = .CrcB1)
    (hcap : d.bytes_read < d.packet_storage.length)
    (hsm : d.bytes_read + 1 ≤ usizeMax)
    (e : Packet.Error)
    (hpn : Packet.new ((d.packet_storage.set d.bytes_read 0).take
      (d.bytes_read + 1)) = .error e) :
    Decoder.decode d b =
      ({ d with state := .FrameOffset, frame_offset := 0, bytes_read := 0,
                packet_storage := d.packet_storage.set d.bytes_read 0,
                invalid_pkt_count := satSucc usizeMax d.invalid_pkt_count },
       .error (.PacketError e)) := by
  rcases d with ⟨st, fo, ibr, dbr, br, vc, ic, dl, off, il, ps⟩
  simp only at hst hfo hcap hsm hpn
  subst hst
  unfold Decoder.decode
  rw [if_neg hb, if_neg hfo]
  unfold Decoder.machineStep Decoder.feed
  simp only
  rw [if_neg (show ¬ br ≥ ps.length by omega)]
  simp only [Decoder.reset]
  rw [show satSucc usizeMax br = br + 1 by unfold satSucc; omega]
  rw [hpn]

set_option maxRecDepth 30000 in
/-- C7: the claim is the spec's intent, but the code cannot decode frames
produced by its own Framing layer once a COBS group is cut at 254 bytes:
the fused decoder always substitutes a zero at each offset expiry, with no
special case for the 0xFF group code. Feeding the encoded long packet once
(N = 1) yields no valid packet, one invalid packet, and an InvalidChecksum
error, instead of the claimed N valid packets with invalid_count() = 0.
The evaluation proceeds in bounded chunks through runList_append. -/
theorem long_frame_decode_bug :
    Packet.new longPkt = .ok longPkt ∧
    longPkt.length = 5 + Packet.id_length_raw longPkt + Packet.data_length longPkt ∧
    (Decoder.runList (Decoder.new (List.replicate 256 0))
        (Framing.encode_buf longPkt)).valid_pkt_count = 0 ∧
    (Decoder.runList (Decoder.new (List.replicate 256 0))
        (Framing.encode_buf longPkt)).invalid_pkt_count = 1 := by
  have henc : Framing.encode_buf longPkt =
      ([0xFF, 0xF9, 0x14, 0x01, 0x61] ++ List.replicate 27 0x41) ++
      (List.replicate 32 0x41 ++ (List.replicate 32 0x41 ++
      (List.replicate 32 0x41 ++ (List.replicate 32 0x41 ++
      (List.replicate 32 0x41 ++ (List.replicate 32 0x41 ++
      ((List.replicate 30 0x41 ++ [0x1C]) ++ [0x02, 0x83, 0x00]))))))) := rfl
  have s1 : Decoder.runList (Decoder.new (List.replicate 256 0))
      ([0xFF, 0xF9, 0x14, 0x01, 0x61] ++ List.replicate 27 0x41) =
      ⟨.Payload, 224, 1, 27, 31, 0, 0, 249, false, 1,
        [0xF9, 0x14, 0x01, 0x61] ++ List.replicate 27 0x41 ++
          List.replicate 225 0⟩ := rfl
  have s2 : Decoder.runList
      (⟨.Payload, 224, 1, 27, 31, 0, 0, 249, false, 1,
        [0xF9, 0x14, 0x01, 0x61] ++ List.replicate 27 0x41 ++
          List.replicate 225 0⟩ : Decoder) (List.replicate 32 0x41) =
      ⟨.Payload, 192, 1, 59, 63, 0, 0, 249, false, 1,
        [0xF9, 0x14, 0x01, 0x61] ++ List.replicate 59 0x41 ++
          List.replicate 193 0⟩ := rfl
  have s3 : Decoder.runList
      (⟨.Payload, 192, 1, 59, 63, 0, 0, 249, false, 1,
        [0xF9, 0x14, 0x01, 0x61] ++ List.replicate 59 0x41 ++
          List.replicate 193 0⟩ : Decoder) (List.replicate 32 0x41) =
      ⟨.Payload, 160, 1, 91, 95, 0, 0, 249, false, 1,
        [0xF9, 0x14, 0x01, 0x61] ++ List.replicate 91 0x41 ++
          List.replicate 161 0⟩ := rfl
  have s4 : Decoder.runList
      (⟨.Payload, 160, 1, 91, 95, 0, 0, 249, false, 1,
        [0xF9, 0x14, 0x01, 0x61] ++ List.replicate 91 0x41 ++
          List.replicate 161 0⟩ : Decoder) (List.replicate 32 0x41) =
      ⟨.Payload, 128, 1, 123, 127, 0, 0, 249, false, 1,
        [0xF9, 0x14, 0x01, 0x61] ++ List.replicate 123 0x41 ++
          List.replicate 129 0⟩ := rfl
  have s5 : Decoder.runList
      (⟨.Payload, 128, 1, 123, 127, 0, 0, 249, false, 1,
        [0xF9, 0x14, 0x01, 0x61] ++ List.replicate 123 0x41 ++
          List.replicate 129 0⟩ : Decoder) (List.replicate 32 0x41) =
      ⟨.Payload, 96, 1, 155, 159, 0, 0, 249, false, 1,
        [0xF9, 0x14, 0x01, 0x61] ++ List.replicate 155 0x41 ++
          List.replicate 97 0⟩ := rfl
  have s6 : Decoder.runList
      (⟨.Payload, 96, 1, 155, 159, 0, 0, 249, false, 1,
        [0xF9, 0x14, 0x01, 0x61] ++ List.replicate 155 0x41 ++
          List.replicate 97 0⟩ : Decoder) (List.replicate 32 0x41) =
      ⟨.Payload, 64, 1, 187, 191, 0, 0, 249, false, 1,
        [0xF9, 0x14, 0x01, 0x61] ++ List.replicate 187 0x41 ++
          List.replicate 65 0⟩ := rfl
  have s7 : Decoder.runList
      (⟨.Payload, 64, 1, 187, 191, 0, 0, 249, false, 1,
        [0xF9, 0x14, 0x01, 0x61] ++ List.replicate 187 0x41 ++
          List.replicate 65 0⟩ : Decoder) (List.replicate 32 0x41) =
      ⟨.Payload, 32, 1, 219, 223, 0, 0, 249, false, 1,
        [0xF9, 0x14, 0x01, 0x61] ++ List.replicate 219 0x41 ++
          List.replicate 33 0⟩ := rfl
  have s8 : Decoder.runList
      (⟨.Payload, 32, 1, 219, 223, 0, 0, 249, false, 1,
        [0xF9, 0x14, 0x01, 0x61] ++ List.replicate 219 0x41 ++
          List.replicate 33 0⟩ : Decoder) (List.replicate 30 0x41 ++ [0x1C]) =
      ⟨.CrcB1, 1, 1, 249, 254, 0, 0, 249, false, 1,
        [0xF9, 0x14, 0x01, 0x61] ++ List.replicate 249 0x41 ++ 0x1C ::
          List.replicate 2 0⟩ := rfl
  have hpn : Packet.new
      ((([0xF9, 0x14, 0x01, 0x61] ++ List.replicate 249 0x41 ++ 0x1C ::
          List.replicate 2 0 : List Nat).set 254 0).take (254 + 1)) =
      .error .InvalidChecksum := by
    rw [show (([0xF9, 0x14, 0x01, 0x61] ++ List.replicate 249 0x41 ++ 0x1C ::
        List.replicate 2 0 : List Nat).set 254 0).take (254 + 1) =
      longBody ++ [0x1C, 0x00] from rfl]
    exact new_corrupted_longFrame
  have hstep := decode_crcb1_sub
    (⟨.CrcB1, 1, 1, 249, 254, 0, 0, 249, false, 1,
      [0xF9, 0x14, 0x01, 0x61] ++ List.replicate 249 0x41 ++ 0x1C ::
        List.replicate 2 0⟩ : Decoder) 0x02 (by decide) (by decide) rfl
    (by decide) (by decide) .InvalidChecksum hpn
  have s9 : Decoder.decode
      (⟨.CrcB1, 1, 1, 249, 254, 0, 0, 249, false, 1,
        [0xF9, 0x14, 0x01, 0x61] ++ List.replicate 249 0x41 ++ 0x1C ::
          List.replicate 2 0⟩ : Decoder) 0x02 =
      (⟨.FrameOffset, 0, 1, 249, 0, 0, 1, 249, false, 1,
        ([0xF9, 0x14, 0x01, 0x61] ++ List.replicate 249 0x41 ++ 0x1C ::
          List.replicate 2 0 : List Nat).set 254 0⟩,
       .error (.PacketError .InvalidChecksum)) := by
    rw [hstep]
    rfl
  have s10 : Decoder.runList
      (⟨.FrameOffset, 0, 1, 249, 0, 0, 1, 249, false, 1,
        ([0xF9, 0x14, 0x01, 0x61] ++ List.replicate 249 0x41 ++ 0x1C ::
          List.replicate 2 0 : List Nat).set 254 0⟩ : Decoder) [0x83, 0x00] =
      ⟨.FrameOffset, 0, 1, 249, 0, 0, 1, 249, false, 1,
        ([0xF9, 0x14, 0x01, 0x61] ++ List.replicate 249 0x41 ++ 0x1C ::
          List.replicate 2 0 : List Nat).set 254 0⟩ := rfl
  have hrun : Decoder.runList (Decoder.new (List.replicate 256 0))
      (Framing.encode_buf longPkt) =
      ⟨.FrameOffset, 0, 1, 249, 0, 0, 1, 249, false, 1,
        ([0xF9, 0x14, 0x01, 0x61] ++ List.replicate 249 0x41 ++ 0x1C ::
          List.replicate 2 0 : List Nat).set 254 0⟩ := by
    rw [henc, runList_append, s1, runList_append, s2, runList_append, s3,
      runList_append, s4, runList_append, s5, runList_append, s6,
      runList_append, s7, runList_append, s8]
    show Decoder.runList _ (0x02 :: [0x83, 0x00]) = _
    unfold Decoder.runList
    rw [s9]
    exact s10
  refine ⟨new_longPkt, rfl, ?_, ?_⟩
  · rw [hrun]
  · rw [hrun]

theorem stateTrace_append (d : Decoder) (xs ys : List Nat) :
    Decoder.stateTrace d (xs ++ ys) =
      Decoder.stateTrace d xs ++ Decoder.stateTrace (Decoder.runList d xs) ys := by
  induction xs generalizing d with
  | nil => rfl
  | cons b bs ih =>
    simp only [List.cons_append, Decoder.stateTrace, Decoder.runList, List.cons.injEq,
      true_and]
    exact ih _

theorem outputs_append (d : Decoder) (xs ys : List Nat) :
    Decoder.outputs d (xs ++ ys) =
      Decoder.outputs d xs ++ Decoder.outputs (Decoder.runList d xs) ys := by
  induction xs generalizing d with
  | nil => rfl
  | cons b bs ih =>
    simp only [List.cons_append, Decoder.outputs, Decoder.runList, List.cons.injEq,
      true_and]
    exact ih _

theorem decode_pass (d : Decoder) (b : Nat) (hb : b ≠ 0) (hfo : 1 < d.frame_offset) :
    Decoder.decode d b =
      Decoder.machineStep { d with frame_offset := d.frame_offset - 1 } b := by
  unfold Decoder.decode
  rw [if_neg hb, if_pos hfo]

theorem decode_frameOffset_start (d : Decoder) (b : Nat) (hb : b ≠ 0)
    (hfo : ¬ 1 < d.frame_offset) (hst : d.state = .FrameOffset) :
    Decoder.decode d b =
      ({ d with frame_offset := b, state := .HeaderB0 }, .ok none) := by
  rcases d with ⟨st, fo, ibr, dbr, br, vc, ic, dl, off, il, ps⟩
  simp only at hst hfo
  subst hst
  unfold Decoder.decode
  rw [if_neg hb, if_neg hfo]
  rfl

theorem decode_headerB0 (d : Decoder) (b : Nat) (hb : b ≠ 0)
    (hfo : 1 < d.frame_offset) (hst : d.state = .HeaderB0)
    (hcap : d.bytes_read < d.packet_storage.length)
    (hsm : d.bytes_read + 1 ≤ usizeMax) :
    Decoder.decode d b =
      ({ d with frame_offset := d.frame_offset - 1,
                packet_storage := d.packet_storage.set d.bytes_read b,
                bytes_read := d.bytes_read + 1,
                data_len := b, state := .HeaderB1 }, .ok none) := by
  rcases d with ⟨st, fo, ibr, dbr, br, vc, ic, dl, off, il, ps⟩
  simp only at hst hfo hcap hsm
  subst hst
  rw [decode_pass _ b hb hfo]
  unfold Decoder.machineStep Decoder.feed
  simp only
  rw [if_neg (show ¬ br ≥ ps.length by omega)]
  rw [show satSucc usizeMax br = br + 1 by unfold satSucc; omega]

theorem decode_headerB0_sub (d : Decoder) (b : Nat) (hb : b ≠ 0)
    (hfo : ¬ 1 < d.frame_offset) (hst : d.state = .HeaderB0)
    (hcap : d.bytes_read < d.packet_storage.length)
    (hsm : d.bytes_read + 1 ≤ usizeMax) :
    Decoder.decode d b =
      ({ d with frame_offset := b,
                packet_storage := d.packet_storage.set d.bytes_read 0,
                bytes_read := d.bytes_read + 1,
                data_len := 0, state := .HeaderB1 }, .ok none) := by
  rcases d with ⟨st, fo, ibr, dbr, br, vc, ic, dl, off, il, ps⟩
  simp only at hst hfo hcap hsm
  subst hst
  unfold Decoder.decode
  rw [if_neg hb, if_neg hfo]
  unfold Decoder.machineStep Decoder.feed
  simp only
  rw [if_neg (show ¬ br ≥ ps.length by omega)]
  rw [show satSucc usizeMax br = br + 1 by unfold satSucc; omega]

theorem decode_headerB1 (d : Decoder) (b : Nat) (hb : b ≠ 0)
    (hfo : 1 < d.frame_offset) (hst : d.state = .HeaderB1)
    (hcap : d.bytes_read < d.packet_storage.length)
    (hsm : d.bytes_read + 1 ≤ usizeMax) :
    Decoder.decode d b =
      ({ d with frame_offset := d.frame_offset - 1,
                packet_storage := d.packet_storage.set d.bytes_read b,
                bytes_read := d.bytes_read + 1,
                data_len := d.data_len ||| ((b <<< 8) &&& 0x0300),
                offset := ((b >>> 7) &&& 0x01) != 0,
                state := .HeaderB2 }, .ok none) := by
  rcases d with ⟨st, fo, ibr, dbr, br, vc, ic, dl, off, il, ps⟩
  simp only at hst hfo hcap hsm
  subst hst
  rw [decode_pass _ b hb hfo]
  unfold Decoder.machineStep Decoder.feed
  simp only
  rw [if_neg (show ¬ br ≥ ps.length by omega)]
  rw [show satSucc usizeMax br = br + 1 by unfold satSucc; omega]

theorem decode_headerB2 (d : Decoder) (b : Nat) (hb : b ≠ 0)
    (hfo : 1 < d.frame_offset) (hst : d.state = .HeaderB2)
    (hcap : d.bytes_read < d.packet_storage.length)
    (hsm : d.bytes_read + 1 ≤ usizeMax) :
    Decoder.decode d b =
      ({ d with frame_offset := d.frame_offset - 1,
                packet_storage := d.packet_storage.set d.bytes_read b,
                bytes_read := d.bytes_read + 1,
                id_len := b &&& 0x0F, id_bytes_read := 0,
                state := .MsgId }, .ok none) := by
  rcases d with ⟨st, fo, ibr, dbr, br, vc, ic, dl, off, il, ps⟩
  simp only at hst hfo hcap hsm
  subst hst
  rw [decode_pass _ b hb hfo]
  unfold Decoder.machineStep Decoder.feed
  simp only
  rw [if_neg (show ¬ br ≥ ps.length by omega)]
  rw [show satSucc usizeMax br = br + 1 by unfold satSucc; omega]

theorem decode_msgId_stay (d : Decoder) (b : Nat) (hb : b ≠ 0)
    (hfo : 1 < d.frame_offset) (hst : d.state = .MsgId)
    (hcap : d.bytes_read < d.packet_storage.length)
    (hsm : d.bytes_read + 1 ≤ usizeMax)
    (hu8 : d.id_bytes_read + 1 ≤ u8Max)
    (hlt : d.id_bytes_read + 1 < d.id_len) :
    Decoder.decode d b =
      ({ d with frame_offset := d.frame_offset - 1,
                packet_storage := d.packet_storage.set d.bytes_read b,
                bytes_read := d.bytes_read + 1,
                id_bytes_read := d.id_bytes_read + 1 }, .ok none) := by
  rcases d with ⟨st, fo, ibr, dbr, br, vc, ic, dl, off, il, ps⟩
  simp only at hst hfo hcap hsm hu8 hlt
  subst hst
  rw [decode_pass _ b hb hfo]
  unfold Decoder.machineStep Decoder.feed
  simp only
  rw [if_neg (show ¬ br ≥ ps.length by omega)]
  rw [show satSucc usizeMax br = br + 1 by unfold satSucc; omega]
  rw [show satSucc u8Max ibr = ibr + 1 by unfold satSucc; omega]
  dsimp only
  rw [if_neg (show ¬ ibr + 1 ≥ il by omega)]

theorem decode_msgId_branch (d : Decoder) (b : Nat) (hb : b ≠ 0)
    (hfo : 1 < d.frame_offset) (hst : d.state = .MsgId)
    (hcap : d.bytes_read < d.packet_storage.length)
    (hsm : d.bytes_read + 1 ≤ usizeMax)
    (hu8 : d.id_bytes_read + 1 ≤ u8Max)
    (hge : d.id_bytes_read + 1 ≥ d.id_len) :
    Decoder.decode d b =
      (if d.offset then
        ({ d with frame_offset := d.frame_offset - 1,
                  packet_storage := d.packet_storage.set d.bytes_read b,
                  bytes_read := d.bytes_read + 1,
                  id_bytes_read := d.id_bytes_read + 1,
                  state := .OffsetB0 }, .ok none)
      else if 0 < d.data_len then
        ({ d with frame_offset := d.frame_offset - 1,
                  packet_storage := d.packet_storage.set d.bytes_read b,
                  bytes_read := d.bytes_read + 1,
                  id_bytes_read := d.id_bytes_read + 1,
                  data_bytes_read := 0,
                  state := .Payload }, .ok none)
      else
        ({ d with frame_offset := d.frame_offset - 1,
                  packet_storage := d.packet_storage.set d.bytes_read b,
                  bytes_read := d.bytes_read + 1,
                  id_bytes_read := d.id_bytes_read + 1,
                  state := .CrcB0 }, .ok none)) := by
  rcases d with ⟨st, fo, ibr, dbr, br, vc, ic, dl, off, il, ps⟩
  simp only at hst hfo hcap hsm hu8 hge
  subst hst
  rw [decode_pass _ b hb hfo]
  unfold Decoder.machineStep Decoder.feed
  simp only
  rw [if_neg (show ¬ br ≥ ps.length by omega)]
  rw [show satSucc usizeMax br = br + 1 by unfold satSucc; omega]
  rw [show satSucc u8Max ibr = ibr + 1 by unfold satSucc; omega]
  dsimp only
  rw [if_pos (show ibr + 1 ≥ il by omega)]

theorem decode_offsetB0 (d : Decoder) (b : Nat) (hb : b ≠ 0)
    (hfo : 1 < d.frame_offset) (hst : d.state = .OffsetB0)
    (hcap : d.bytes_read < d.packet_storage.length)
    (hsm : d.bytes_read + 1 ≤ usizeMax) :
    Decoder.decode d b =
      ({ d with frame_offset := d.frame_offset - 1,
                packet_storage := d.packet_storage.set d.bytes_read b,
                bytes_read := d.bytes_read + 1,
                state := .OffsetB1 }, .ok none) := by
  rcases d with ⟨st, fo, ibr, dbr, br, vc, ic, dl, off, il, ps⟩
  simp only at hst hfo hcap hsm
  subst hst
  rw [decode_pass _ b hb hfo]
  unfold Decoder.machineStep Decoder.feed
  simp only
  rw [if_neg (show ¬ br ≥ ps.length by omega)]
  rw [show satSucc usizeMax br = br + 1 by unfold satSucc; omega]

theorem decode_offsetB1 (d : Decoder) (b : Nat) (hb : b ≠ 0)
    (hfo : 1 < d.frame_offset) (hst : d.state = .OffsetB1)
    (hcap : d.bytes_read < d.packet_storage.length)
    (hsm : d.bytes_read + 1 ≤ usizeMax) :
    Decoder.decode d b =
      ({ d with frame_offset := d.frame_offset - 1,
                packet_storage := d.packet_storage.set d.bytes_read b,
                bytes_read := d.bytes_read + 1,
                state := .Payload }, .ok none) := by
  rcases d with ⟨st, fo, ibr, dbr, br, vc, ic, dl, off, il, ps⟩
  simp only at hst hfo hcap hsm
  subst hst
  rw [decode_pass _ b hb hfo]
  unfold Decoder.machineStep Decoder.feed
  simp only
  rw [if_neg (show ¬ br ≥ ps.length by omega)]
  rw [show satSucc usizeMax br = br + 1 by unfold satSucc; omega]

theorem decode_payload_stay (d : Decoder) (b : Nat) (hb : b ≠ 0)
    (hfo : 1 < d.frame_offset) (hst : d.state = .Payload)
    (hcap : d.bytes_read < d.packet_storage.length)
    (hsm : d.bytes_read + 1 ≤ usizeMax)
    (hu16 : d.data_bytes_read + 1 ≤ u16Max)
    (hlt : d.data_bytes_read + 1 < d.data_len) :
    Decoder.decode d b =
      ({ d with frame_offset := d.frame_offset - 1,
                packet_storage := d.packet_storage.set d.bytes_read b,
                bytes_read := d.bytes_read + 1,
                data_bytes_read := d.data_bytes_read + 1 }, .ok none) := by
  rcases d with ⟨st, fo, ibr, dbr, br, vc, ic, dl, off, il, ps⟩
  simp only at hst hfo hcap hsm hu16 hlt
  subst hst
  rw [decode_pass _ b hb hfo]
  unfold Decoder.machineStep Decoder.feed
  simp only
  rw [if_neg (show ¬ br ≥ ps.length by omega)]
  rw [show satSucc usizeMax br = br + 1 by unfold satSucc; omega]
  rw [show satSucc u16Max dbr = dbr + 1 by unfold satSucc; omega]
  dsimp only
  rw [if_neg (show ¬ dbr + 1 ≥ dl by omega)]

theorem decode_payload_done (d : Decoder) (b : Nat) (hb : b ≠ 0)
    (hfo : 1 < d.frame_offset) (hst : d.state = .Payload)
    (hcap : d.bytes_read < d.packet_storage.length)
    (hsm : d.bytes_read + 1 ≤ usizeMax)
    (hu16 : d.data_bytes_read + 1 ≤ u16Max)
    (hge : d.data_bytes_read + 1 ≥ d.data_len) :
    Decoder.decode d b =
      ({ d with frame_offset := d.frame_offset - 1,
                packet_storage := d.packet_storage.set d.bytes_read b,
                bytes_read := d.bytes_read + 1,
                data_bytes_read := d.data_bytes_read + 1,
                state := .CrcB0 }, .ok none) := by
  rcases d with ⟨st, fo, ibr, dbr, br, vc, ic, dl, off, il, ps⟩
  simp only at hst hfo hcap hsm hu16 hge
  subst hst
  rw [decode_pass _ b hb hfo]
  unfold Decoder.machineStep Decoder.feed
  simp only
  rw [if_neg (show ¬ br ≥ ps.length by omega)]
  rw [show satSucc usizeMax br = br + 1 by unfold satSucc; omega]
  rw [show satSucc u16Max dbr = dbr + 1 by unfold satSucc; omega]
  dsimp only
  rw [if_pos (show dbr + 1 ≥ dl by omega)]

theorem decode_crcB0 (d : Decoder) (b : Nat) (hb : b ≠ 0)
    (hfo : 1 < d.frame_offset) (hst : d.state = .CrcB0)
    (hcap : d.bytes_read < d.packet_storage.length)
    (hsm : d.bytes_read + 1 ≤ usizeMax) :
    Decoder.decode d b =
      ({ d with frame_offset := d.frame_offset - 1,
                packet_storage := d.packet_storage.set d.bytes_read b,
                bytes_read := d.bytes_read + 1,
                state := .CrcB1 }, .ok none) := by
  rcases d with ⟨st, fo, ibr, dbr, br, vc, ic, dl, off, il, ps⟩
  simp only at hst hfo hcap hsm
  subst hst
  rw [decode_pass _ b hb hfo]
  unfold Decoder.machineStep Decoder.feed
  simp only
  rw [if_neg (show ¬ br ≥ ps.length by omega)]
  rw [show satSucc usizeMax br = br + 1 by unfold satSucc; omega]

theorem decode_crcB1_final (d : Decoder) (b : Nat) (hb : b ≠ 0)
    (hfo : 1 < d.frame_offset) (hst : d.state = .CrcB1)
    (hcap : d.bytes_read < d.packet_storage.length)
    (hsm : d.bytes_read + 1 ≤ usizeMax) :
    (Decoder.decode d b).1.state = .FrameOffset ∧
    (Decoder.decode d b).2 ≠ .ok none := by
  rcases d with ⟨st, fo, ibr, dbr, br, vc, ic, dl, off, il, ps⟩
  simp only at hst hfo hcap hsm
  subst hst
  rw [decode_pass _ b hb hfo]
  unfold Decoder.machineStep Decoder.feed
  simp only
  rw [if_neg (show ¬ br ≥ ps.length by omega)]
  simp only [Decoder.reset]
  rcases hpn : Packet.new ((ps.set br b).take (satSucc usizeMax br)) with e | p <;>
    simp [hpn]


theorem runList_cons (d : Decoder) (b : Nat) (bs : List Nat) :
    Decoder.runList d (b :: bs) = Decoder.runList (Decoder.decode d b).1 bs := rfl

theorem stateTrace_cons (d : Decoder) (b : Nat) (bs : List Nat) :
    Decoder.stateTrace d (b :: bs) =
      d.state :: Decoder.stateTrace (Decoder.decode d b).1 bs := rfl

theorem outputs_cons (d : Decoder) (b : Nat) (bs : List Nat) :
    Decoder.outputs d (b :: bs) =
      (Decoder.decode d b).2 :: Decoder.outputs (Decoder.decode d b).1 bs := rfl

theorem msgId_segment (ids : List Nat) (d : Decoder)
    (hst : d.state = .MsgId)
    (hn : 1 ≤ ids.length)
    (hnz : ∀ b ∈ ids, b ≠ 0)
    (hr : d.id_bytes_read + ids.length = max 1 d.id_len)
    (hil : d.id_len ≤ 15)
    (hfo : ids.length + 1 ≤ d.frame_offset)
    (hcap : d.bytes_read + ids.length ≤ d.packet_storage.length)
    (hsm : d.packet_storage.length ≤ usizeMax) :
    Decoder.stateTrace d ids = List.replicate ids.length State.MsgId ∧
    Decoder.outputs d ids = List.replicate ids.length (Except.ok none) ∧
    (Decoder.runList d ids).state =
      (if d.offset then State.OffsetB0
       else if 0 < d.data_len then State.Payload else State.CrcB0) ∧
    (Decoder.runList d ids).frame_offset = d.frame_offset - ids.length ∧
    (Decoder.runList d ids).bytes_read = d.bytes_read + ids.length ∧
    (Decoder.runList d ids).data_len = d.data_len ∧
    (Decoder.runList d ids).offset = d.offset ∧
    (Decoder.runList d ids).data_bytes_read =
      (if d.offset = false ∧ 0 < d.data_len then 0 else d.data_bytes_read) ∧
    (Decoder.runList d ids).packet_storage.length = d.packet_storage.length := by
  induction ids generalizing d with
  | nil => simp at hn
  | cons b rest ih =>
    rcases d with ⟨st, fo, ibr, dbr, br, vc, ic, dl, off, il, ps⟩
    simp only at hst hr hil hfo hcap hsm
    subst hst
    simp only [List.length_cons] at hr hfo hcap
    have hb : b ≠ 0 := hnz b (List.mem_cons_self b rest)
    have hfo1 : 1 < fo := by omega
    have hcap1 : br < ps.length := by omega
    have hsm1 : br + 1 ≤ usizeMax := by omega
    have hu8 : ibr + 1 ≤ u8Max := by unfold u8Max; omega
    cases rest with
    | nil =>
      simp only [List.length_nil] at hr hfo hcap
      have hge : ibr + 1 ≥ il := by omega
      have hstep := decode_msgId_branch ⟨.MsgId, fo, ibr, dbr, br, vc, ic, dl, off, il, ps⟩
        b hb hfo1 rfl hcap1 hsm1 hu8 hge
      have h1 : Decoder.runList ⟨.MsgId, fo, ibr, dbr, br, vc, ic, dl, off, il, ps⟩ [b] =
          (Decoder.decode ⟨.MsgId, fo, ibr, dbr, br, vc, ic, dl, off, il, ps⟩ b).1 := rfl
      have h2 : Decoder.stateTrace ⟨.MsgId, fo, ibr, dbr, br, vc, ic, dl, off, il, ps⟩ [b] =
          [State.MsgId] := rfl
      have h3 : Decoder.outputs ⟨.MsgId, fo, ibr, dbr, br, vc, ic, dl, off, il, ps⟩ [b] =
          [(Decoder.decode ⟨.MsgId, fo, ibr, dbr, br, vc, ic, dl, off, il, ps⟩ b).2] := rfl
      rw [h2, h3, h1, hstep]
      cases off <;> by_cases hdl : 0 < dl <;>
        simp [hdl, List.length_set]
    | cons b2 rest2 =>
      simp only [List.length_cons] at hr hfo hcap
      have hlt : ibr + 1 < il := by omega
      have hstep := decode_msgId_stay ⟨.MsgId, fo, ibr, dbr, br, vc, ic, dl, off, il, ps⟩
        b hb hfo1 rfl hcap1 hsm1 hu8 hlt
      have h1 : Decoder.runList ⟨.MsgId, fo, ibr, dbr, br, vc, ic, dl, off, il, ps⟩ (b :: b2 :: rest2) =
          Decoder.runList (Decoder.decode ⟨.MsgId, fo, ibr, dbr, br, vc, ic, dl, off, il, ps⟩ b).1 (b2 :: rest2) := rfl
      have h2 : Decoder.stateTrace ⟨.MsgId, fo, ibr, dbr, br, vc, ic, dl, off, il, ps⟩ (b :: b2 :: rest2) =
          State.MsgId :: Decoder.stateTrace (Decoder.decode ⟨.MsgId, fo, ibr, dbr, br, vc, ic, dl, off, il, ps⟩ b).1 (b2 :: rest2) := rfl
      have h3 : Decoder.outputs ⟨.MsgId, fo, ibr, dbr, br, vc, ic, dl, off, il, ps⟩ (b :: b2 :: rest2) =
          (Decoder.decode ⟨.MsgId, fo, ibr, dbr, br, vc, ic, dl, off, il, ps⟩ b).2 ::
            Decoder.outputs (Decoder.decode ⟨.MsgId, fo, ibr, dbr, br, vc, ic, dl, off, il, ps⟩ b).1 (b2 :: rest2) := rfl
      rw [h2, h3, h1, hstep]
      have ihr := ih ⟨.MsgId, fo - 1, ibr + 1, dbr, br + 1, vc, ic, dl, off, il, ps.set br b⟩
        rfl
        (show 1 ≤ (b2 :: rest2).length by simp)
        (fun x hx => hnz x (List.mem_cons_of_mem b hx))
        (show (ibr + 1) + (b2 :: rest2).length = max 1 il by
          simp only [List.length_cons]; omega)
        hil
        (show (b2 :: rest2).length + 1 ≤ fo - 1 by
          simp only [List.length_cons]; omega)
        (show (br + 1) + (b2 :: rest2).length ≤ (ps.set br b).length by
          simp only [List.length_cons, List.length_set]; omega)
        (show (ps.set br b).length ≤ usizeMax by
          simp only [List.length_set]; omega)
      obtain ⟨it, io, is, ifo, ibrr, idl, ioff, idbr, ilen⟩ := ihr
      dsimp only
      refine ⟨?_, ?_, ?_, ?_, ?_, ?_, ?_, ?_, ?_⟩
      · rw [it]; simp [List.replicate_succ]
      · rw [io]; simp [List.replicate_succ]
      · rw [is]
      · rw [ifo]; simp only [List.length_cons]; omega
      · rw [ibrr]; simp only [List.length_cons]; omega
      · rw [idl]
      · rw [ioff]
      · rw [idbr]
      · rw [ilen]; simp [List.length_set]

theorem payload_segment (pay : List Nat) (d : Decoder)
    (hst : d.state = .Payload)
    (hn : 1 ≤ pay.length)
    (hnz : ∀ b ∈ pay, b ≠ 0)
    (hr : d.data_bytes_read + pay.length = max 1 d.data_len)
    (hdl : d.data_len ≤ 1023)
    (hfo : pay.length + 1 ≤ d.frame_offset)
    (hcap : d.bytes_read + pay.length ≤ d.packet_storage.length)
    (hsm : d.packet_storage.length ≤ usizeMax) :
    Decoder.stateTrace d pay = List.replicate pay.length State.Payload ∧
    Decoder.outputs d pay = List.replicate pay.length (Except.ok none) ∧
    (Decoder.runList d pay).state = State.CrcB0 ∧
    (Decoder.runList d pay).frame_offset = d.frame_offset - pay.length ∧
    (Decoder.runList d pay).bytes_read = d.bytes_read + pay.length ∧
    (Decoder.runList d pay).packet_storage.length = d.packet_storage.length := by
  induction pay generalizing d with
  | nil => simp at hn
  | cons b rest ih =>
    rcases d with ⟨st, fo, ibr, dbr, br, vc, ic, dl, off, il, ps⟩
    simp only at hst hr hdl hfo hcap hsm
    subst hst
    simp only [List.length_cons] at hr hfo hcap
    have hb : b ≠ 0 := hnz b (List.mem_cons_self b rest)
    have hfo1 : 1 < fo := by omega
    have hcap1 : br < ps.length := by omega
    have hsm1 : br + 1 ≤ usizeMax := by omega
    have hu16 : dbr + 1 ≤ u16Max := by unfold u16Max; omega
    cases rest with
    | nil =>
      simp only [List.length_nil] at hr hfo hcap
      have hge : dbr + 1 ≥ dl := by omega
      have hstep := decode_payload_done ⟨.Payload, fo, ibr, dbr, br, vc, ic, dl, off, il, ps⟩
        b hb hfo1 rfl hcap1 hsm1 hu16 hge
      have h1 : Decoder.runList ⟨.Payload, fo, ibr, dbr, br, vc, ic, dl, off, il, ps⟩ [b] =
          (Decoder.decode ⟨.Payload, fo, ibr, dbr, br, vc, ic, dl, off, il, ps⟩ b).1 := rfl
      have h2 : Decoder.stateTrace ⟨.Payload, fo, ibr, dbr, br, vc, ic, dl, off, il, ps⟩ [b] =
          [State.Payload] := rfl
      have h3 : Decoder.outputs ⟨.Payload, fo, ibr, dbr, br, vc, ic, dl, off, il, ps⟩ [b] =
          [(Decoder.decode ⟨.Payload, fo, ibr, dbr, br, vc, ic, dl, off, il, ps⟩ b).2] := rfl
      rw [h2, h3, h1, hstep]
      simp [List.length_set]
    | cons b2 rest2 =>
      simp only [List.length_cons] at hr hfo hcap
      have hlt : dbr + 1 < dl := by omega
      have hstep := decode_payload_stay ⟨.Payload, fo, ibr, dbr, br, vc, ic, dl, off, il, ps⟩
        b hb hfo1 rfl hcap1 hsm1 hu16 hlt
      have h1 : Decoder.runList ⟨.Payload, fo, ibr, dbr, br, vc, ic, dl, off, il, ps⟩ (b :: b2 :: rest2) =
          Decoder.runList (Decoder.decode ⟨.Payload, fo, ibr, dbr, br, vc, ic, dl, off, il, ps⟩ b).1 (b2 :: rest2) := rfl
      have h2 : Decoder.stateTrace ⟨.Payload, fo, ibr, dbr, br, vc, ic, dl, off, il, ps⟩ (b :: b2 :: rest2) =
          State.Payload :: Decoder.stateTrace (Decoder.decode ⟨.Payload, fo, ibr, dbr, br, vc, ic, dl, off, il, ps⟩ b).1 (b2 :: rest2) := rfl
      have h3 : Decoder.outputs ⟨.Payload, fo, ibr, dbr, br, vc, ic, dl, off, il, ps⟩ (b :: b2 :: rest2) =
          (Decoder.decode ⟨.Payload, fo, ibr, dbr, br, vc, ic, dl, off, il, ps⟩ b).2 ::
            Decoder.outputs (Decoder.decode ⟨.Payload, fo, ibr, dbr, br, vc, ic, dl, off, il, ps⟩ b).1 (b2 :: rest2) := rfl
      rw [h2, h3, h1, hstep]
      have ihr := ih ⟨.Payload, fo - 1, ibr, dbr + 1, br + 1, vc, ic, dl, off, il, ps.set br b⟩
        rfl
        (show 1 ≤ (b2 :: rest2).length by simp)
        (fun x hx => hnz x (List.mem_cons_of_mem b hx))
        (show (dbr + 1) + (b2 :: rest2).length = max 1 dl by
          simp only [List.length_cons]; omega)
        hdl
        (show (b2 :: rest2).length + 1 ≤ fo - 1 by
          simp only [List.length_cons]; omega)
        (show (br + 1) + (b2 :: rest2).length ≤ (ps.set br b).length by
          simp only [List.length_cons, List.length_set]; omega)
        (show (ps.set br b).length ≤ usizeMax by
          simp only [List.length_set]; omega)
      obtain ⟨it, io, is, ifo, ibrr, ilen⟩ := ihr
      dsimp only
      refine ⟨?_, ?_, ?_, ?_, ?_, ?_⟩
      · rw [it]; simp [List.replicate_succ]
      · rw [io]; simp [List.replicate_succ]
      · rw [is]
      · rw [ifo]; simp only [List.length_cons]; omega
      · rw [ibrr]; simp only [List.length_cons]; omega
      · rw [ilen]; simp [List.length_set]








theorem offset_pair (d : Decoder) (o0 o1 : Nat) (ho0 : o0 ≠ 0) (ho1 : o1 ≠ 0)
    (hst : d.state = .OffsetB0) (hfo : 3 ≤ d.frame_offset)
    (hcap : d.bytes_read + 2 ≤ d.packet_storage.length)
    (hsm : d.packet_storage.length ≤ usizeMax) :
    Decoder.stateTrace d [o0, o1] = [State.OffsetB0, State.OffsetB1] ∧
    Decoder.outputs d [o0, o1] = [Except.ok none, Except.ok none] ∧
    (Decoder.runList d [o0, o1]).state = State.Payload ∧
    (Decoder.runList d [o0, o1]).frame_offset = d.frame_offset - 2 ∧
    (Decoder.runList d [o0, o1]).bytes_read = d.bytes_read + 2 ∧
    (Decoder.runList d [o0, o1]).data_len = d.data_len ∧
    (Decoder.runList d [o0, o1]).offset = d.offset ∧
    (Decoder.runList d [o0, o1]).data_bytes_read = d.data_bytes_read ∧
    (Decoder.runList d [o0, o1]).packet_storage.length = d.packet_storage.length := by
  rcases d with ⟨st, fo, ibr, dbr, br, vc, ic, dl, off, il, ps⟩
  simp only at hst hfo hcap hsm
  subst hst
  have hsA := decode_offsetB0 ⟨.OffsetB0, fo, ibr, dbr, br, vc, ic, dl, off, il, ps⟩
    o0 ho0 (show 1 < fo by omega) rfl (show br < ps.length by omega)
    (show br + 1 ≤ usizeMax by omega)
  have hsB := decode_offsetB1
    ⟨.OffsetB1, fo - 1, ibr, dbr, br + 1, vc, ic, dl, off, il, ps.set br o0⟩
    o1 ho1 (show 1 < fo - 1 by omega) rfl
    (show br + 1 < (ps.set br o0).length by simp only [List.length_set]; omega)
    (show br + 1 + 1 ≤ usizeMax by omega)
  rw [stateTrace_cons, outputs_cons, runList_cons, hsA]
  dsimp only
  rw [stateTrace_cons, outputs_cons, runList_cons, hsB]
  dsimp only
  refine ⟨rfl, rfl, rfl, show fo - 1 - 1 = fo - 2 by omega,
    show br + 1 + 1 = br + 2 by omega, rfl, rfl, rfl,
    show ((ps.set br o0).set (br + 1) o1).length = ps.length by simp [List.length_set]⟩

theorem crc_tail (d : Decoder) (c0 c1 : Nat) (hc0 : c0 ≠ 0) (hc1 : c1 ≠ 0)
    (hst : d.state = .CrcB0) (hfo : 3 ≤ d.frame_offset)
    (hcap : d.bytes_read + 2 ≤ d.packet_storage.length)
    (hsm : d.packet_storage.length ≤ usizeMax) :
    Decoder.stateTrace d [c0, c1] = [State.CrcB0, State.CrcB1] ∧
    (Decoder.runList d [c0, c1]).state = State.FrameOffset ∧
    ∃ r, Decoder.outputs d [c0, c1] = [Except.ok none, r] ∧ r ≠ Except.ok none := by
  rcases d with ⟨st, fo, ibr, dbr, br, vc, ic, dl, off, il, ps⟩
  simp only at hst hfo hcap hsm
  subst hst
  have hsA := decode_crcB0 ⟨.CrcB0, fo, ibr, dbr, br, vc, ic, dl, off, il, ps⟩
    c0 hc0 (show 1 < fo by omega) rfl (show br < ps.length by omega)
    (show br + 1 ≤ usizeMax by omega)
  have hsB := decode_crcB1_final
    ⟨.CrcB1, fo - 1, ibr, dbr, br + 1, vc, ic, dl, off, il, ps.set br c0⟩
    c1 hc1 (show 1 < fo - 1 by omega) rfl
    (show br + 1 < (ps.set br c0).length by simp only [List.length_set]; omega)
    (show br + 1 + 1 ≤ usizeMax by omega)
  rw [stateTrace_cons, outputs_cons, runList_cons, hsA]
  dsimp only
  rw [stateTrace_cons, outputs_cons, runList_cons]
  refine ⟨rfl, hsB.1, ⟨_, rfl, hsB.2⟩⟩

theorem replicate_shift {α : Type} (a : α) (p : Nat) (l : List α) :
    List.replicate p a ++ (a :: l) = a :: (List.replicate p a ++ l) := by
  induction p with
  | zero => rfl
  | succ n ih => simp only [List.replicate_succ, List.cons_append, ih]

theorem replicate_merge {α : Type} (a : α) (m n : Nat) (l : List α) :
    List.replicate m a ++ (List.replicate n a ++ l) =
      List.replicate (m + n) a ++ l := by
  rw [← List.append_assoc, ← List.replicate_add]

theorem out_seg_noff (i p : Nat) (r : Except DecoderError (Option (List Nat))) :
    List.replicate i (Except.ok none : Except DecoderError (Option (List Nat))) ++
      (List.replicate p (Except.ok none) ++ [Except.ok none, r]) =
      List.replicate (i + p + 1) (Except.ok none) ++ [r] := by
  rw [show i + p + 1 = i + (p + 1) by omega]
  rw [List.replicate_add, List.replicate_add, List.replicate_succ]
  simp [List.append_assoc, List.replicate_succ, replicate_shift, replicate_merge]

theorem out_seg_off (i p : Nat) (r : Except DecoderError (Option (List Nat))) :
    List.replicate i (Except.ok none : Except DecoderError (Option (List Nat))) ++
      ([Except.ok none, Except.ok none] ++
        (List.replicate p (Except.ok none) ++ [Except.ok none, r])) =
      List.replicate (i + 2 + p + 1) (Except.ok none) ++ [r] := by
  rw [show i + 2 + p + 1 = i + (2 + (p + 1)) by omega]
  rw [List.replicate_add, List.replicate_add, List.replicate_add,
    List.replicate_succ]
  simp [List.append_assoc, List.replicate_succ, replicate_shift, replicate_merge]

theorem out_seg_skip (i : Nat) (r : Except DecoderError (Option (List Nat))) :
    List.replicate i (Except.ok none : Except DecoderError (Option (List Nat))) ++
      [Except.ok none, r] =
      List.replicate (i + 1) (Except.ok none) ++ [r] := by
  rw [List.replicate_add]
  simp [List.append_assoc, List.replicate_succ, replicate_shift, replicate_merge]

theorem out_head_calc (k : Nat) (r : Except DecoderError (Option (List Nat))) :
    (Except.ok none : Except DecoderError (Option (List Nat))) :: Except.ok none ::
        Except.ok none :: Except.ok none ::
      (List.replicate k (Except.ok none) ++ [r]) =
      List.replicate (4 + k) (Except.ok none) ++ [r] := by
  rw [List.replicate_add]
  simp [List.append_assoc, List.replicate_succ]

theorem msgid_to_end (d : Decoder) (ids offb pay : List Nat) (c0 c1 : Nat)
    (hst : d.state = .MsgId) (hibr : d.id_bytes_read = 0)
    (hdbr : d.data_bytes_read = 0)
    (hnz : ∀ b ∈ ids ++ (offb ++ (pay ++ [c0, c1])), b ≠ 0)
    (hids : ids.length = max 1 d.id_len) (hil : d.id_len ≤ 15)
    (hoffb : offb.length = if d.offset then 2 else 0)
    (hpay : pay.length = if d.offset then max 1 d.data_len else d.data_len)
    (hdl : d.data_len ≤ 1023)
    (hfo : ids.length + offb.length + pay.length + 3 ≤ d.frame_offset)
    (hcap : d.bytes_read + ids.length + offb.length + pay.length + 2 ≤
      d.packet_storage.length)
    (hsm : d.packet_storage.length ≤ usizeMax) :
    Decoder.stateTrace d (ids ++ (offb ++ (pay ++ [c0, c1]))) =
      List.replicate ids.length State.MsgId
        ++ ((if d.offset then [State.OffsetB0, State.OffsetB1] else [])
          ++ (List.replicate pay.length State.Payload
            ++ [State.CrcB0, State.CrcB1])) ∧
    (Decoder.runList d (ids ++ (offb ++ (pay ++ [c0, c1])))).state =
      State.FrameOffset ∧
    ∃ r, Decoder.outputs d (ids ++ (offb ++ (pay ++ [c0, c1]))) =
      List.replicate (ids.length + offb.length + pay.length + 1) (Except.ok none)
        ++ [r] ∧ r ≠ Except.ok none := by
  have hids1 : 1 ≤ ids.length := by omega
  have hc0 : c0 ≠ 0 := hnz c0 (by simp)
  have hc1 : c1 ≠ 0 := hnz c1 (by simp)
  have hidsnz : ∀ b ∈ ids, b ≠ 0 := fun b hb => hnz b (by simp [hb])
  have hoffnz : ∀ b ∈ offb, b ≠ 0 := fun b hb => hnz b (by simp [hb])
  have hpaynz : ∀ b ∈ pay, b ≠ 0 := fun b hb => hnz b (by simp [hb])
  have hseg := msgId_segment ids d hst hids1 hidsnz
    (by omega) hil (by omega) (by omega) hsm
  obtain ⟨mt, mo, ms, mfo, mbr, mdl, moff, mdbr, mlen⟩ := hseg
  rw [hdbr] at mdbr
  rw [ite_self] at mdbr
  cases hoffv : d.offset with
  | false =>
    rw [hoffv, if_neg Bool.false_ne_true] at ms hpay hoffb
    have hoffe : offb = [] := List.length_eq_zero.mp hoffb
    subst hoffe
    simp only [List.nil_append]
    simp only [List.length_nil] at hfo hcap
    by_cases hdl0 : 0 < d.data_len
    · rw [if_pos hdl0] at ms
      have hpseg := payload_segment pay (Decoder.runList d ids) ms
        (by omega)
        hpaynz
        (by rw [mdbr, mdl]; omega)
        (by rw [mdl]; omega)
        (by rw [mfo]; omega)
        (by rw [mbr, mlen]; omega)
        (by rw [mlen]; omega)
      obtain ⟨pt, po, pst, pfo, pbr, plen⟩ := hpseg
      have hcrc := crc_tail (Decoder.runList (Decoder.runList d ids) pay) c0 c1
        hc0 hc1 pst
        (by rw [pfo, mfo]; omega)
        (by rw [pbr, plen, mbr, mlen]; omega)
        (by rw [plen, mlen]; omega)
      obtain ⟨ct, cst, r, co, crne⟩ := hcrc
      refine ⟨?_, ?_, r, ?_, crne⟩
      · rw [stateTrace_append, mt, stateTrace_append, pt, ct]
        rfl
      · rw [runList_append, runList_append]
        exact cst
      · rw [outputs_append, mo, outputs_append, po, co]
        exact out_seg_noff ids.length pay.length r
    · rw [if_neg hdl0] at ms
      have hpaye : pay = [] := List.length_eq_zero.mp (by omega)
      subst hpaye
      simp only [List.nil_append]
      simp only [List.length_nil] at hfo hcap
      have hcrc := crc_tail (Decoder.runList d ids) c0 c1 hc0 hc1 ms
        (by rw [mfo]; omega)
        (by rw [mbr, mlen]; omega)
        (by rw [mlen]; omega)
      obtain ⟨ct, cst, r, co, crne⟩ := hcrc
      refine ⟨?_, ?_, r, ?_, crne⟩
      · rw [stateTrace_append, mt, ct]
        rfl
      · rw [runList_append]
        exact cst
      · rw [outputs_append, mo, co]
        exact out_seg_skip ids.length r
  | true =>
    rw [hoffv, if_pos rfl] at ms hpay hoffb
    rcases offb with _ | ⟨o0, _ | ⟨o1, _ | ⟨o2, ob3⟩⟩⟩
    · exact absurd hoffb (by simp)
    · exact absurd hoffb (by simp)
    · simp only [List.length_cons, List.length_nil] at hfo hcap
      have ho0 : o0 ≠ 0 := hoffnz o0 (by simp)
      have ho1 : o1 ≠ 0 := hoffnz o1 (by simp)
      have hop := offset_pair (Decoder.runList d ids) o0 o1 ho0 ho1 ms
        (by rw [mfo]; omega)
        (by rw [mbr, mlen]; omega)
        (by rw [mlen]; omega)
      obtain ⟨ot, oo, ost, ofo, obr, odl, ooff, odbr, olen⟩ := hop
      have hpseg := payload_segment pay
        (Decoder.runList (Decoder.runList d ids) [o0, o1]) ost
        (by omega)
        hpaynz
        (by rw [odbr, mdbr, odl, mdl]; omega)
        (by rw [odl, mdl]; omega)
        (by rw [ofo, mfo]; omega)
        (by rw [obr, mbr, olen, mlen]; omega)
        (by rw [olen, mlen]; omega)
      obtain ⟨pt, po, pst, pfo, pbr, plen⟩ := hpseg
      have hcrc := crc_tail
        (Decoder.runList (Decoder.runList (Decoder.runList d ids) [o0, o1]) pay)
        c0 c1 hc0 hc1 pst
        (by rw [pfo, ofo, mfo]; omega)
        (by rw [pbr, plen, obr, mbr, olen, mlen]; omega)
        (by rw [plen, olen, mlen]; omega)
      obtain ⟨ct, cst, r, co, crne⟩ := hcrc
      refine ⟨?_, ?_, r, ?_, crne⟩
      · rw [stateTrace_append, mt, stateTrace_append, ot, stateTrace_append,
          pt, ct]
        rfl
      · rw [runList_append, runList_append, runList_append]
        exact cst
      · rw [outputs_append, mo, outputs_append, oo, outputs_append, po, co]
        exact out_seg_off ids.length pay.length r
    · exact absurd hoffb (by simp)

set_option maxRecDepth 4000 in
/-- **C3** (amended): fed one complete COBS-framed packet whose frame bytes
after the data-length low byte are all nonzero, with `wireHead` carrying that
low byte `h0` (a nonzero `h0` rides in the group opened by the offset byte,
while `h0 = 0` arrives as an offset expiry that substitutes a literal zero),
the decoder visits states in order FrameOffset, HeaderB0, HeaderB1, HeaderB2,
then MsgId repeated max 1 id_length times (one id byte is consumed even when
the id_length field is 0), then OffsetB0 and OffsetB1 exactly when the offset
flag was set in HeaderB1, then Payload repeated data_length times when the
offset flag is clear - skipped entirely when data_length is 0 - but max 1
data_length times when the offset flag is set (OffsetB1 always advances into
Payload), then CrcB0, then CrcB1; completing CrcB1 returns the machine to
FrameOffset and yields a result that is not the silent Except.ok none. -/
theorem decoder_state_order
    (strg : List Nat) (w0 h0 h1 h2 : Nat) (ids offb pay : List Nat) (c0 c1 : Nat)
    (hw0 : 6 + ids.length + offb.length + pay.length ≤ w0)
    (hnz : ∀ b ∈ h1 :: h2 :: (ids ++ (offb ++ (pay ++ [c0, c1]))), b ≠ 0)
    (hb0 : h0 < 256)
    (hids : ids.length = max 1 (h2 &&& 0x0F))
    (hoffb : offb.length = if ((h1 >>> 7) &&& 0x01) != 0 then 2 else 0)
    (hpay : pay.length = if ((h1 >>> 7) &&& 0x01) != 0
        then max 1 (h0 ||| ((h1 <<< 8) &&& 0x0300))
        else h0 ||| ((h1 <<< 8) &&& 0x0300))
    (hcap : 5 + ids.length + offb.length + pay.length ≤ strg.length)
    (hsm : strg.length ≤ usizeMax) :
    Decoder.stateTrace (Decoder.new strg)
        (wireHead w0 h0 ++ (h1 :: h2 :: (ids ++ (offb ++ (pay ++ [c0, c1]))))) =
      [State.FrameOffset, State.HeaderB0, State.HeaderB1, State.HeaderB2]
        ++ (List.replicate ids.length State.MsgId
          ++ ((if ((h1 >>> 7) &&& 0x01) != 0
                then [State.OffsetB0, State.OffsetB1] else [])
            ++ (List.replicate pay.length State.Payload
              ++ [State.CrcB0, State.CrcB1]))) ∧
    (Decoder.runList (Decoder.new strg)
        (wireHead w0 h0 ++ (h1 :: h2 :: (ids ++ (offb ++ (pay ++ [c0, c1])))))).state =
      State.FrameOffset ∧
    ∃ r, Decoder.outputs (Decoder.new strg)
        (wireHead w0 h0 ++ (h1 :: h2 :: (ids ++ (offb ++ (pay ++ [c0, c1]))))) =
      List.replicate (5 + ids.length + offb.length + pay.length) (Except.ok none)
        ++ [r] ∧ r ≠ Except.ok none := by
  have hw0nz : w0 ≠ 0 := by omega
  have hh1 : h1 ≠ 0 := hnz h1 (by simp)
  have hh2 : h2 ≠ 0 := hnz h2 (by simp)
  have htail : ∀ b ∈ ids ++ (offb ++ (pay ++ [c0, c1])), b ≠ 0 :=
    fun b hb => hnz b (by simp [hb])
  have hdlv : h0 ||| ((h1 <<< 8) &&& 0x0300) < 1024 := by
    have hm : (h1 <<< 8) &&& 0x0300 ≤ 0x0300 := Nat.and_le_right
    have ho := Nat.or_lt_two_pow (show h0 < 2 ^ 10 by omega)
      (show (h1 <<< 8) &&& 0x0300 < 2 ^ 10 by omega)
    omega
  have hilv : h2 &&& 0x0F ≤ 15 := Nat.and_le_right
  by_cases hz : h0 = 0
  · subst hz
    have hwh : ∀ t : List Nat,
        wireHead w0 0 ++ (h1 :: h2 :: t) = 1 :: w0 :: h1 :: h2 :: t :=
      fun t => rfl
    rw [hwh]
    have hs0 : Decoder.decode (Decoder.new strg) 1 =
        (⟨State.HeaderB0, 1, 0, 0, 0, 0, 0, 0, false, 0, strg⟩, Except.ok none) :=
      decode_frameOffset_start (Decoder.new strg) 1 one_ne_zero
        (show ¬ 1 < (0 : Nat) by omega) rfl
    have hs1 : Decoder.decode ⟨State.HeaderB0, 1, 0, 0, 0, 0, 0, 0, false, 0,
          strg⟩ w0 =
        (⟨State.HeaderB1, w0, 0, 0, 1, 0, 0, 0, false, 0, strg.set 0 0⟩,
          Except.ok none) :=
      decode_headerB0_sub _ w0 hw0nz (show ¬ 1 < (1 : Nat) by omega) rfl
        (show 0 < strg.length by omega) (show 0 + 1 ≤ usizeMax by omega)
    have hs2 : Decoder.decode ⟨State.HeaderB1, w0, 0, 0, 1, 0, 0, 0, false, 0,
          strg.set 0 0⟩ h1 =
        (⟨State.HeaderB2, w0 - 1, 0, 0, 2, 0, 0,
          0 ||| ((h1 <<< 8) &&& 0x0300), ((h1 >>> 7) &&& 0x01) != 0, 0,
          (strg.set 0 0).set 1 h1⟩, Except.ok none) :=
      decode_headerB1 _ h1 hh1 (show 1 < w0 by omega) rfl
        (show 1 < (strg.set 0 0).length by simp only [List.length_set]; omega)
        (show 1 + 1 ≤ usizeMax by omega)
    have hs3 : Decoder.decode ⟨State.HeaderB2, w0 - 1, 0, 0, 2, 0, 0,
          0 ||| ((h1 <<< 8) &&& 0x0300), ((h1 >>> 7) &&& 0x01) != 0, 0,
          (strg.set 0 0).set 1 h1⟩ h2 =
        (⟨State.MsgId, w0 - 1 - 1, 0, 0, 3, 0, 0,
          0 ||| ((h1 <<< 8) &&& 0x0300), ((h1 >>> 7) &&& 0x01) != 0, h2 &&& 0x0F,
          ((strg.set 0 0).set 1 h1).set 2 h2⟩, Except.ok none) :=
      decode_headerB2 _ h2 hh2 (show 1 < w0 - 1 by omega) rfl
        (show 2 < ((strg.set 0 0).set 1 h1).length by
          simp only [List.length_set]; omega)
        (show 2 + 1 ≤ usizeMax by omega)
    have hpreT : ∀ t : List Nat,
        Decoder.stateTrace (Decoder.new strg) (1 :: w0 :: h1 :: h2 :: t) =
          State.FrameOffset :: State.HeaderB0 :: State.HeaderB1 :: State.HeaderB2 ::
            Decoder.stateTrace ⟨State.MsgId, w0 - 1 - 1, 0, 0, 3, 0, 0,
              0 ||| ((h1 <<< 8) &&& 0x0300), ((h1 >>> 7) &&& 0x01) != 0,
              h2 &&& 0x0F, ((strg.set 0 0).set 1 h1).set 2 h2⟩ t := by
      intro t
      rw [stateTrace_cons, hs0]
      dsimp only
      rw [stateTrace_cons, hs1]
      dsimp only
      rw [stateTrace_cons, hs2]
      dsimp only
      rw [stateTrace_cons, hs3]
      rfl
    have hpreR : ∀ t : List Nat,
        Decoder.runList (Decoder.new strg) (1 :: w0 :: h1 :: h2 :: t) =
          Decoder.runList ⟨State.MsgId, w0 - 1 - 1, 0, 0, 3, 0, 0,
            0 ||| ((h1 <<< 8) &&& 0x0300), ((h1 >>> 7) &&& 0x01) != 0,
            h2 &&& 0x0F, ((strg.set 0 0).set 1 h1).set 2 h2⟩ t := by
      intro t
      rw [runList_cons, hs0]
      dsimp only
      rw [runList_cons, hs1]
      dsimp only
      rw [runList_cons, hs2]
      dsimp only
      rw [runList_cons, hs3]
    have hpreO : ∀ t : List Nat,
        Decoder.outputs (Decoder.new strg) (1 :: w0 :: h1 :: h2 :: t) =
          Except.ok none :: Except.ok none :: Except.ok none :: Except.ok none ::
            Decoder.outputs ⟨State.MsgId, w0 - 1 - 1, 0, 0, 3, 0, 0,
              0 ||| ((h1 <<< 8) &&& 0x0300), ((h1 >>> 7) &&& 0x01) != 0,
              h2 &&& 0x0F, ((strg.set 0 0).set 1 h1).set 2 h2⟩ t := by
      intro t
      rw [outputs_cons, hs0]
      dsimp only
      rw [outputs_cons, hs1]
      dsimp only
      rw [outputs_cons, hs2]
      dsimp only
      rw [outputs_cons, hs3]
    have hend := msgid_to_end ⟨State.MsgId, w0 - 1 - 1, 0, 0, 3, 0, 0,
        0 ||| ((h1 <<< 8) &&& 0x0300), ((h1 >>> 7) &&& 0x01) != 0, h2 &&& 0x0F,
        ((strg.set 0 0).set 1 h1).set 2 h2⟩ ids offb pay c0 c1
      rfl rfl rfl htail hids hilv hoffb hpay
      (show 0 ||| ((h1 <<< 8) &&& 0x0300) ≤ 1023 by omega)
      (show ids.length + offb.length + pay.length + 3 ≤ w0 - 1 - 1 by omega)
      (show 3 + ids.length + offb.length + pay.length + 2 ≤
          (((strg.set 0 0).set 1 h1).set 2 h2).length by
        simp only [List.length_set]; omega)
      (show (((strg.set 0 0).set 1 h1).set 2 h2).length ≤ usizeMax by
        simp only [List.length_set]; omega)
    obtain ⟨tt, ts, r, tout, tr⟩ := hend
    refine ⟨?_, ?_, r, ?_, tr⟩
    · rw [hpreT, tt]
      rfl
    · rw [hpreR]
      exact ts
    · rw [hpreO, tout]
      rw [show 5 + ids.length + offb.length + pay.length =
        4 + (ids.length + offb.length + pay.length + 1) by omega]
      exact out_head_calc (ids.length + offb.length + pay.length + 1) r
  · have hwh : ∀ t : List Nat,
        wireHead w0 h0 ++ (h1 :: h2 :: t) = w0 :: h0 :: h1 :: h2 :: t := by
      intro t
      simp only [wireHead, if_neg hz]
      rfl
    rw [hwh]
    have hs0 : Decoder.decode (Decoder.new strg) w0 =
        (⟨State.HeaderB0, w0, 0, 0, 0, 0, 0, 0, false, 0, strg⟩, Except.ok none) :=
      decode_frameOffset_start (Decoder.new strg) w0 hw0nz
        (show ¬ 1 < (0 : Nat) by omega) rfl
    have hs1 : Decoder.decode ⟨State.HeaderB0, w0, 0, 0, 0, 0, 0, 0, false, 0,
          strg⟩ h0 =
        (⟨State.HeaderB1, w0 - 1, 0, 0, 1, 0, 0, h0, false, 0, strg.set 0 h0⟩,
          Except.ok none) :=
      decode_headerB0 _ h0 hz (show 1 < w0 by omega) rfl
        (show 0 < strg.length by omega) (show 0 + 1 ≤ usizeMax by omega)
    have hs2 : Decoder.decode ⟨State.HeaderB1, w0 - 1, 0, 0, 1, 0, 0, h0,
          false, 0, strg.set 0 h0⟩ h1 =
        (⟨State.HeaderB2, w0 - 1 - 1, 0, 0, 2, 0, 0,
          h0 ||| ((h1 <<< 8) &&& 0x0300), ((h1 >>> 7) &&& 0x01) != 0, 0,
          (strg.set 0 h0).set 1 h1⟩, Except.ok none) :=
      decode_headerB1 _ h1 hh1 (show 1 < w0 - 1 by omega) rfl
        (show 1 < (strg.set 0 h0).length by simp only [List.length_set]; omega)
        (show 1 + 1 ≤ usizeMax by omega)
    have hs3 : Decoder.decode ⟨State.HeaderB2, w0 - 1 - 1, 0, 0, 2, 0, 0,
          h0 ||| ((h1 <<< 8) &&& 0x0300), ((h1 >>> 7) &&& 0x01) != 0, 0,
          (strg.set 0 h0).set 1 h1⟩ h2 =
        (⟨State.MsgId, w0 - 1 - 1 - 1, 0, 0, 3, 0, 0,
          h0 ||| ((h1 <<< 8) &&& 0x0300), ((h1 >>> 7) &&& 0x01) != 0,
          h2 &&& 0x0F, ((strg.set 0 h0).set 1 h1).set 2 h2⟩, Except.ok none) :=
      decode_headerB2 _ h2 hh2 (show 1 < w0 - 1 - 1 by omega) rfl
        (show 2 < ((strg.set 0 h0).set 1 h1).length by
          simp only [List.length_set]; omega)
        (show 2 + 1 ≤ usizeMax by omega)
    have hpreT : ∀ t : List Nat,
        Decoder.stateTrace (Decoder.new strg) (w0 :: h0 :: h1 :: h2 :: t) =
          State.FrameOffset :: State.HeaderB0 :: State.HeaderB1 :: State.HeaderB2 ::
            Decoder.stateTrace ⟨State.MsgId, w0 - 1 - 1 - 1, 0, 0, 3, 0, 0,
              h0 ||| ((h1 <<< 8) &&& 0x0300), ((h1 >>> 7) &&& 0x01) != 0,
              h2 &&& 0x0F, ((strg.set 0 h0).set 1 h1).set 2 h2⟩ t := by
      intro t
      rw [stateTrace_cons, hs0]
      dsimp only
      rw [stateTrace_cons, hs1]
      dsimp only
      rw [stateTrace_cons, hs2]
      dsimp only
      rw [stateTrace_cons, hs3]
      rfl
    have hpreR : ∀ t : List Nat,
        Decoder.runList (Decoder.new strg) (w0 :: h0 :: h1 :: h2 :: t) =
          Decoder.runList ⟨State.MsgId, w0 - 1 - 1 - 1, 0, 0, 3, 0, 0,
            h0 ||| ((h1 <<< 8) &&& 0x0300), ((h1 >>> 7) &&& 0x01) != 0,
            h2 &&& 0x0F, ((strg.set 0 h0).set 1 h1).set 2 h2⟩ t := by
      intro t
      rw [runList_cons, hs0]
      dsimp only
      rw [runList_cons, hs1]
      dsimp only
      rw [runList_cons, hs2]
      dsimp only
      rw [runList_cons, hs3]
    have hpreO : ∀ t : List Nat,
        Decoder.outputs (Decoder.new strg) (w0 :: h0 :: h1 :: h2 :: t) =
          Except.ok none :: Except.ok none :: Except.ok none :: Except.ok none ::
            Decoder.outputs ⟨State.MsgId, w0 - 1 - 1 - 1, 0, 0, 3, 0, 0,
              h0 ||| ((h1 <<< 8) &&& 0x0300), ((h1 >>> 7) &&& 0x01) != 0,
              h2 &&& 0x0F, ((strg.set 0 h0).set 1 h1).set 2 h2⟩ t := by
      intro t
      rw [outputs_cons, hs0]
      dsimp only
      rw [outputs_cons, hs1]
      dsimp only
      rw [outputs_cons, hs2]
      dsimp only
      rw [outputs_cons, hs3]
    have hend := msgid_to_end ⟨State.MsgId, w0 - 1 - 1 - 1, 0, 0, 3, 0, 0,
        h0 ||| ((h1 <<< 8) &&& 0x0300), ((h1 >>> 7) &&& 0x01) != 0, h2 &&& 0x0F,
        ((strg.set 0 h0).set 1 h1).set 2 h2⟩ ids offb pay c0 c1
      rfl rfl rfl htail hids hilv hoffb hpay
      (show h0 ||| ((h1 <<< 8) &&& 0x0300) ≤ 1023 by omega)
      (show ids.length + offb.length + pay.length + 3 ≤ w0 - 1 - 1 - 1 by omega)
      (show 3 + ids.length + offb.length + pay.length + 2 ≤
          (((strg.set 0 h0).set 1 h1).set 2 h2).length by
        simp only [List.length_set]; omega)
      (show (((strg.set 0 h0).set 1 h1).set 2 h2).length ≤ usizeMax by
        simp only [List.length_set]; omega)
    obtain ⟨tt, ts, r, tout, tr⟩ := hend
    refine ⟨?_, ?_, r, ?_, tr⟩
    · rw [hpreT, tt]
      rfl
    · rw [hpreR]
      exact ts
    · rw [hpreO, tout]
      rw [show 5 + ids.length + offb.length + pay.length =
        4 + (ids.length + offb.length + pay.length + 1) by omega]
      exact out_head_calc (ids.length + offb.length + pay.length + 1) r

set_option maxRecDepth 4000 in
/-- **C3** counterexample to the literal claim: after the 4-byte header
FF 05 04 10 (id_length field = 0) the decoder consumes the next byte in
state MsgId, so MsgId is visited once rather than id_length = 0 times; and
after the header of frame 01 FF 84 11 (offset flag set, data_length = 0)
and one id byte plus the two offset bytes, the next byte is consumed in
state Payload, so Payload is not skipped even though data_length is 0. -/
theorem decoder_state_order_counterexample :
    Decoder.stateTrace (Decoder.new (List.replicate 64 0)) [0xFF, 5, 4, 0x10, 9] =
      [State.FrameOffset, State.HeaderB0, State.HeaderB1, State.HeaderB2,
        State.MsgId] ∧
    (Decoder.runList (Decoder.new (List.replicate 64 0)) [0xFF, 5, 4, 0x10]).id_len
      = 0 ∧
    Decoder.stateTrace (Decoder.new (List.replicate 64 0))
        [1, 0xFF, 0x84, 0x11, 0x61, 1, 1, 1] =
      [State.FrameOffset, State.HeaderB0, State.HeaderB1, State.HeaderB2,
        State.MsgId, State.OffsetB0, State.OffsetB1, State.Payload] ∧
    (Decoder.runList (Decoder.new (List.replicate 64 0))
        [1, 0xFF, 0x84, 0x11, 0x61, 1, 1]).data_len = 0 ∧
    (Decoder.runList (Decoder.new (List.replicate 64 0))
        [1, 0xFF, 0x84, 0x11, 0x61, 1, 1]).offset = true := by
  refine ⟨rfl, rfl, rfl, rfl, rfl⟩

set_option maxRecDepth 4000 in
/-- Witness for the amended C3 theorem at two concrete frames: the Int8
example frame 0A 01 14 63 61 62 63 2A B8 A3 (id "abc", one payload byte,
offset flag clear), and a zero-payload frame 01 07 14 11 68 05 07 whose
data-length low byte arrives by offset expiry, tracing
FrameOffset, HeaderB0, HeaderB1, HeaderB2, MsgId, CrcB0, CrcB1 with the
Payload state skipped entirely. -/
theorem decoder_state_order_witness :
    (Decoder.stateTrace (Decoder.new (List.replicate 16 0))
        (wireHead 10 1 ++ (0x14 :: 0x63 ::
          ([0x61, 0x62, 0x63] ++ ([] ++ ([0x2A] ++ [0xB8, 0xA3]))))) =
      [State.FrameOffset, State.HeaderB0, State.HeaderB1, State.HeaderB2,
        State.MsgId, State.MsgId, State.MsgId, State.Payload,
        State.CrcB0, State.CrcB1] ∧
    (Decoder.runList (Decoder.new (List.replicate 16 0))
        (wireHead 10 1 ++ (0x14 :: 0x63 ::
          ([0x61, 0x62, 0x63] ++ ([] ++ ([0x2A] ++ [0xB8, 0xA3])))))).state =
      State.FrameOffset ∧
    ∃ r, Decoder.outputs (Decoder.new (List.replicate 16 0))
        (wireHead 10 1 ++ (0x14 :: 0x63 ::
          ([0x61, 0x62, 0x63] ++ ([] ++ ([0x2A] ++ [0xB8, 0xA3]))))) =
      List.replicate 9 (Except.ok none) ++ [r] ∧ r ≠ Except.ok none) ∧
    (Decoder.stateTrace (Decoder.new (List.replicate 16 0))
        (wireHead 7 0 ++ (0x14 :: 0x11 ::
          ([0x68] ++ ([] ++ ([] ++ [5, 7]))))) =
      [State.FrameOffset, State.HeaderB0, State.HeaderB1, State.HeaderB2,
        State.MsgId, State.CrcB0, State.CrcB1] ∧
    (Decoder.runList (Decoder.new (List.replicate 16 0))
        (wireHead 7 0 ++ (0x14 :: 0x11 ::
          ([0x68] ++ ([] ++ ([] ++ [5, 7])))))).state =
      State.FrameOffset ∧
    ∃ r, Decoder.outputs (Decoder.new (List.replicate 16 0))
        (wireHead 7 0 ++ (0x14 :: 0x11 ::
          ([0x68] ++ ([] ++ ([] ++ [5, 7]))))) =
      List.replicate 6 (Except.ok none) ++ [r] ∧ r ≠ Except.ok none) :=
  ⟨decoder_state_order (List.replicate 16 0) 10 1 0x14 0x63
      [0x61, 0x62, 0x63] [] [0x2A] 0xB8 0xA3
      (by decide) (by decide) (by decide) (by decide) (by decide) (by decide)
      (by decide) (by decide),
    decoder_state_order (List.replicate 16 0) 7 0 0x14 0x11
      [0x68] [] [] 5 7
      (by decide) (by decide) (by decide) (by decide) (by decide) (by decide)
      (by decide) (by decide)⟩

end EUI







